import Mathlib

/-!
# Verification of the cost-allocation and order-lifecycle engine

A shallow embedding of the computational core of `src/main.py`
(cost-allocation report, manufacturing-order lifecycle, revenue
aggregation), together with theorems settling the specification
claims about it.

Conventions of the embedding:

* SQLAlchemy rows become Lean structures; synthetic autoincrement `id`
  columns on pure side-effect rows (project shares, tracking rows) are
  omitted because nothing reads them.
* Python `int` is `ℤ`; Python `float` arithmetic is modelled as exact
  rational arithmetic over `ℚ`; `int(x)` on a float is truncation
  toward zero (`pyTrunc`).
* A storage query that may raise is an `Option` result: `none` models
  the query raising, `some rows` a successful read returning `rows` in
  storage iteration order.
* Python dicts are association lists: assignment updates the first
  matching key in place or appends a fresh key at the end, which is
  exactly the insertion-order semantics of `dict`.
* Statuses are the literal strings the source compares against:
  `"견적중"` = Quoting, `"제작중"` = InProduction, `"납품완료"` = Delivered,
  `"미진행"` = NotProceeding, and for projects `"진행중"` = InProgress,
  `"신청완료"` = Applied.
-/

/-! ## Python-arithmetic helpers -/

/-- Python `int(x)` applied to a (rational-modelled) float: truncation
toward zero. On a normalised rational this is truncating division of
the numerator by the denominator. -/
def pyTrunc (q : ℚ) : ℤ := q.num.tdiv q.den

/-- Python `int(a / b)` on integers (true division then `int`): in exact
arithmetic, division truncated toward zero. -/
def pyIntDiv (a b : ℤ) : ℤ := a.tdiv b

/-! ## Python dicts as association lists -/

/-- Lookup in a Python dict modelled as an association list (first
matching key; dicts built by `assocSet` have distinct keys). -/
def assocGet {α β : Type} [DecidableEq α] : List (α × β) → α → Option β
  | [], _ => none
  | kv :: rest, k => if kv.1 = k then some kv.2 else assocGet rest k

/-- Python `d[k] = v` on a dict: replace the value at an existing key in
place, else append the new key at the end (insertion order). -/
def assocSet {α β : Type} [DecidableEq α] : List (α × β) → α → β → List (α × β)
  | [], k, v => [(k, v)]
  | kv :: rest, k, v => if kv.1 = k then (k, v) :: rest else kv :: assocSet rest k v

/-! ## Allocation data model (ORM classes of src/main.py) -/

/-- `Personnel` row: id, name, department, annual salary (nullable). -/
structure Personnel where
  id : ℤ
  name : String
  department : String
  salary : Option ℤ
deriving DecidableEq

/-- `PersonnelProjectShare` row (synthetic id omitted). -/
structure PersonnelProjectShare where
  personnel_id : ℤ
  project_title : String
  percent : Option ℚ
deriving DecidableEq

/-- `Equipment` row: id, name, acquisition cost (nullable), date. -/
structure Equipment where
  id : ℤ
  name : String
  acquisition_cost : Option ℤ
  acquisition_date : String
deriving DecidableEq

/-- `EquipmentProjectShare` row (synthetic id omitted). -/
structure EquipmentProjectShare where
  equipment_id : ℤ
  project_title : String
  percent : Option ℚ
deriving DecidableEq

/-- `Project` row; only the columns the allocation engine reads. -/
structure Project where
  id : ℤ
  title : String
  status : String
deriving DecidableEq

/-- Key insertion of `dict.fromkeys`: an already-present key keeps its
position, a new key is appended. -/
def pyDictInsertKey (acc : List String) (x : String) : List String :=
  if x ∈ acc then acc else acc ++ [x]

/-- `list(dict.fromkeys(xs))`: distinct elements in first-occurrence
order. -/
def pyDictFromKeys (xs : List String) : List String :=
  xs.foldl pyDictInsertKey []

/-- `get_active_project_titles` (src/main.py:823): titles of projects
whose status is `"진행중"` or `"신청완료"`, dropping falsy (empty) titles,
de-duplicated keeping first occurrences; a storage failure
(`projectsRes = none`) is caught and masked to `[]`. -/
def get_active_project_titles (projectsRes : Option (List Project)) : List String :=
  match projectsRes with
  | none => []
  | some rows =>
    let actives := rows.filter (fun r => decide (r.status = "진행중" ∨ r.status = "신청완료"))
    pyDictFromKeys ((actives.filter (fun r => r.title ≠ "")).map (·.title))

/-! ## Share-replacement endpoints -/

/-- Body of the insert loop of `update_personnel_shares`
(src/main.py:719): a payload entry is persisted iff its percent is
non-`None` (conversion by `float` of a float value always succeeds) and
strictly positive. -/
def personnel_shares_from_payload (person_id : ℤ) (payload : List (String × Option ℚ)) :
    List PersonnelProjectShare :=
  payload.filterMap (fun kv =>
    match kv.2 with
    | none => none
    | some val => if 0 < val then some ⟨person_id, kv.1, some val⟩ else none)

/-- `update_personnel_shares` (src/main.py:707): 404 when the owner is
missing, otherwise delete every share row of the owner and insert the
positive payload entries. -/
def update_personnel_shares (people : List Personnel) (rows : List PersonnelProjectShare)
    (person_id : ℤ) (payload : List (String × Option ℚ)) :
    Option (List PersonnelProjectShare) :=
  if (people.find? (fun p => decide (p.id = person_id))).isSome then
    some ((rows.filter (fun s => decide (¬ s.personnel_id = person_id))) ++
      personnel_shares_from_payload person_id payload)
  else none

/-- Body of the insert loop of `update_equipment_shares`
(src/main.py:801). -/
def equipment_shares_from_payload (equipment_id : ℤ) (payload : List (String × Option ℚ)) :
    List EquipmentProjectShare :=
  payload.filterMap (fun kv =>
    match kv.2 with
    | none => none
    | some val => if 0 < val then some ⟨equipment_id, kv.1, some val⟩ else none)

/-- `update_equipment_shares` (src/main.py:789). -/
def update_equipment_shares (eqs : List Equipment) (rows : List EquipmentProjectShare)
    (equipment_id : ℤ) (payload : List (String × Option ℚ)) :
    Option (List EquipmentProjectShare) :=
  if (eqs.find? (fun e => decide (e.id = equipment_id))).isSome then
    some ((rows.filter (fun s => decide (¬ s.equipment_id = equipment_id))) ++
      equipment_shares_from_payload equipment_id payload)
  else none

/-! ## The allocation report (`get_assets`, src/main.py:849) -/

/-- One iteration of the loop building `person_share_map`
(src/main.py:888): skip the row if its title is not active, else
`person_share_map[s.personnel_id][s.project_title] = float(s.percent or
0)` — a row absent from the outer dict gets a fresh inner dict first. -/
def person_share_step (active_projects : List String)
    (m : List (ℤ × List (String × ℚ))) (s : PersonnelProjectShare) :
    List (ℤ × List (String × ℚ)) :=
  if s.project_title ∈ active_projects then
    assocSet m s.personnel_id
      (assocSet ((assocGet m s.personnel_id).getD []) s.project_title (s.percent.getD 0))
  else m

/-- The two-level dict `person_share_map` built at src/main.py:887:
share rows are folded in storage order, rows whose title is not active
are skipped, and for each (owner, active title) the later row
overwrites the earlier one. -/
def person_share_map (person_shares : List PersonnelProjectShare)
    (active_projects : List String) : List (ℤ × List (String × ℚ)) :=
  person_shares.foldl (person_share_step active_projects) []

/-- One iteration of the loop building `equip_share_map`
(src/main.py:927). -/
def equip_share_step (active_projects : List String)
    (m : List (ℤ × List (String × ℚ))) (s : EquipmentProjectShare) :
    List (ℤ × List (String × ℚ)) :=
  if s.project_title ∈ active_projects then
    assocSet m s.equipment_id
      (assocSet ((assocGet m s.equipment_id).getD []) s.project_title (s.percent.getD 0))
  else m

/-- The dict `equip_share_map` built at src/main.py:926. -/
def equip_share_map (equip_shares : List EquipmentProjectShare)
    (active_projects : List String) : List (ℤ × List (String × ℚ)) :=
  equip_shares.foldl (equip_share_step active_projects) []

/-- The dict `proj_shares = {title: 0.0 for title in active_projects}`
overwritten from the owner's inner share map: every inner key is an
active title, so the result maps each active title to its inner value,
defaulting to 0, in active-list order. -/
def proj_shares_for (active_projects : List String) (inner : List (String × ℚ)) :
    List (String × ℚ) :=
  active_projects.map (fun t => (t, (assocGet inner t).getD 0))

/-- One element of `personnel_rows` (loop body at src/main.py:899). -/
structure PersonnelRow where
  person_id : ℤ
  name : String
  department : String
  salary : Option ℤ
  shares : List (String × ℚ)
  total_percent : ℚ
  total_amount : ℤ
deriving DecidableEq

/-- One element of `equipment_rows` (loop body at src/main.py:938). -/
structure EquipmentRow where
  equipment_id : ℤ
  name : String
  acquisition_cost : Option ℤ
  acquisition_date : String
  shares : List (String × ℚ)
  total_percent : ℚ
  total_amount : ℤ
deriving DecidableEq

/-- The float `total_amount = salary * (total_percent / 100.0)` of the
personnel loop, before the `int()` in the row dict; the grand total
accumulates this un-truncated value. -/
def personnel_amountQ (active_projects : List String)
    (m : List (ℤ × List (String × ℚ))) (person : Personnel) : ℚ :=
  ((person.salary.getD 0 : ℤ) : ℚ) *
    (((proj_shares_for active_projects ((assocGet m person.id).getD [])).map (·.2)).sum / 100)

/-- Personnel loop body (src/main.py:899): per-title shares restricted
to active projects, their sum, and the truncated allocated amount. -/
def personnel_row (active_projects : List String)
    (m : List (ℤ × List (String × ℚ))) (person : Personnel) : PersonnelRow :=
  let inner := (assocGet m person.id).getD []
  let proj_shares := proj_shares_for active_projects inner
  { person_id := person.id
    name := person.name
    department := person.department
    salary := person.salary
    shares := proj_shares
    total_percent := (proj_shares.map (·.2)).sum
    total_amount := pyTrunc (personnel_amountQ active_projects m person) }

/-- The float `total_amount` of the equipment loop. -/
def equipment_amountQ (active_projects : List String)
    (m : List (ℤ × List (String × ℚ))) (eq : Equipment) : ℚ :=
  ((eq.acquisition_cost.getD 0 : ℤ) : ℚ) *
    (((proj_shares_for active_projects ((assocGet m eq.id).getD [])).map (·.2)).sum / 100)

/-- Equipment loop body (src/main.py:938). -/
def equipment_row (active_projects : List String)
    (m : List (ℤ × List (String × ℚ))) (eq : Equipment) : EquipmentRow :=
  let inner := (assocGet m eq.id).getD []
  let proj_shares := proj_shares_for active_projects inner
  { equipment_id := eq.id
    name := eq.name
    acquisition_cost := eq.acquisition_cost
    acquisition_date := eq.acquisition_date
    shares := proj_shares
    total_percent := (proj_shares.map (·.2)).sum
    total_amount := pyTrunc (equipment_amountQ active_projects m eq) }

/-- The response shape of `/assets`. -/
structure AssetsReport where
  projects : List String
  personnel_rows : List PersonnelRow
  personnel_salary_total : ℤ
  personnel_grand_total : ℤ
  equipment_rows : List EquipmentRow
  equipment_acquisition_total : ℤ
  equipment_grand_total : ℤ
deriving DecidableEq

/-- `empty_result` (src/main.py:858): the zero-valued fallback report. -/
def empty_result : AssetsReport :=
  { projects := []
    personnel_rows := []
    personnel_salary_total := 0
    personnel_grand_total := 0
    equipment_rows := []
    equipment_acquisition_total := 0
    equipment_grand_total := 0 }

/-- The storage reads `get_assets` performs; `none` models the
corresponding query raising. -/
structure AssetsDB where
  people : Option (List Personnel)
  person_shares : Option (List PersonnelProjectShare)
  equipments : Option (List Equipment)
  equip_shares : Option (List EquipmentProjectShare)
  projects : Option (List Project)
deriving DecidableEq

/-- `get_assets` (src/main.py:849). A failure in any of the four
owner/share reads is caught by the first `except` and masked to
`empty_result`; a failure in the projects read is caught inside
`get_active_project_titles` and masked to an empty active list, after
which the report is still computed. The computation itself is pure and
cannot raise. -/
def get_assets (db : AssetsDB) : AssetsReport :=
  match db.people, db.person_shares, db.equipments, db.equip_shares with
  | some people, some person_shares, some equipments, some equip_shares =>
    let active_projects := get_active_project_titles db.projects
    let pmap := person_share_map person_shares active_projects
    let emap := equip_share_map equip_shares active_projects
    { projects := active_projects
      personnel_rows := people.map (personnel_row active_projects pmap)
      personnel_salary_total :=
        pyTrunc ((people.map (fun p => ((p.salary.getD 0 : ℤ) : ℚ))).sum)
      personnel_grand_total :=
        pyTrunc ((people.map (personnel_amountQ active_projects pmap)).sum)
      equipment_rows := equipments.map (equipment_row active_projects emap)
      equipment_acquisition_total :=
        pyTrunc ((equipments.map (fun e => ((e.acquisition_cost.getD 0 : ℤ) : ℚ))).sum)
      equipment_grand_total :=
        pyTrunc ((equipments.map (equipment_amountQ active_projects emap)).sum) }
  | _, _, _, _ => empty_result

/-! ## Order lifecycle (`ProcessOrder`, src/main.py:193) -/

/-- `ProcessOrder` row. `unit_manufacturing_cost` is used by the source
as the total manufacturing cost; `unit_quote_price` and `margin_rate`
are the derived fields. -/
structure ProcessOrder where
  id : ℤ
  company_name : String
  quote_date : String
  category : String
  product_name : String
  quantity : ℤ
  unit_manufacturing_cost : ℤ
  unit_quote_price : ℤ
  total_quote_price : ℤ
  status : String
  actual_order_amount : Option ℤ
  margin_rate : Option ℚ
  related_file : Option String
  delivered_at : Option String
  due_date : Option String
deriving DecidableEq

/-- `ProcessTracking` row: only the `order_id` reference matters to the
lifecycle logic (metric columns and the synthetic id are omitted). -/
structure ProcessTracking where
  order_id : ℤ
deriving DecidableEq

/-- The persisted order/tracking store the lifecycle endpoints read and
write. -/
structure OrderDB where
  orders : List ProcessOrder
  trackings : List ProcessTracking
deriving DecidableEq

/-- The form input of `create_process_order` (src/main.py:1098);
`stored_file` models the stored name of the optional uploaded file. -/
structure CreateOrderForm where
  company_name : String
  quote_date : String
  category : String
  product_name : String
  quantity : ℤ
  manufacturing_cost : ℤ
  total_quote_price : ℤ
  status : String
  due_date : String
  actual_order_amount : Option ℤ
  stored_file : Option String
deriving DecidableEq

/-- `ProcessOrderSchema` (src/main.py:982), the update payload. The
`unit_quote_price`, `margin_rate` and `delivered_at` fields are part of
the schema but `update_process_order` never reads them. -/
structure ProcessOrderSchema where
  company_name : String
  quote_date : String
  category : String
  product_name : String
  quantity : ℤ
  unit_manufacturing_cost : ℤ
  unit_quote_price : ℤ
  total_quote_price : ℤ
  status : String
  actual_order_amount : Option ℤ
  margin_rate : Option ℚ
  related_file : Option String
  delivered_at : Option String
  due_date : Option String
deriving DecidableEq

/-- src/main.py:1123 — `int(total_quote_price / quantity) if quantity
else 0`. -/
def create_unit_quote_price (total_quote_price quantity : ℤ) : ℤ :=
  if quantity ≠ 0 then pyIntDiv total_quote_price quantity else 0

/-- src/main.py:1126 — margin only when `total_quote_price > 0`. -/
def create_margin_rate (total_quote_price manufacturing_cost : ℤ) : Option ℚ :=
  if 0 < total_quote_price then
    some (((total_quote_price - manufacturing_cost : ℤ) : ℚ) /
      ((total_quote_price : ℤ) : ℚ) * 100)
  else none

/-- `create_process_order` (src/main.py:1098): computes the derived
fields from the raw form, stamps `delivered_at` when created already
Delivered, appends the order, and when created InProduction appends a
default tracking row. `newId` is the fresh primary key the store
assigns, `today` the current date string. -/
def create_process_order (db : OrderDB) (f : CreateOrderForm) (newId : ℤ) (today : String) :
    OrderDB × ProcessOrder :=
  let obj : ProcessOrder :=
    { id := newId
      company_name := f.company_name
      quote_date := f.quote_date
      category := f.category
      product_name := f.product_name
      quantity := f.quantity
      unit_manufacturing_cost := f.manufacturing_cost
      unit_quote_price := create_unit_quote_price f.total_quote_price f.quantity
      total_quote_price := f.total_quote_price
      status := f.status
      actual_order_amount := f.actual_order_amount
      margin_rate := create_margin_rate f.total_quote_price f.manufacturing_cost
      related_file := f.stored_file
      delivered_at := if f.status = "납품완료" then some today else none
      due_date := some f.due_date }
  let trackings :=
    if f.status = "제작중" then db.trackings ++ [⟨newId⟩] else db.trackings
  (⟨db.orders ++ [obj], trackings⟩, obj)

/-- src/main.py:1206 — `if obj.quantity and obj.total_quote_price`. -/
def update_unit_quote_price (total_quote_price quantity : ℤ) : ℤ :=
  if quantity ≠ 0 ∧ total_quote_price ≠ 0 then pyIntDiv total_quote_price quantity else 0

/-- src/main.py:1211 — `if obj.total_quote_price:` (truthiness, not
`> 0`); the payload's `unit_manufacturing_cost` is an `int`, so the
source's `or 0` only maps 0 to itself. -/
def update_margin_rate (total_quote_price unit_manufacturing_cost : ℤ) : Option ℚ :=
  if total_quote_price ≠ 0 then
    some (((total_quote_price - unit_manufacturing_cost : ℤ) : ℚ) /
      ((total_quote_price : ℤ) : ℚ) * 100)
  else none

/-- The field mutations `update_process_order` performs on the found
order (src/main.py:1186-1234). `obj` holds the previously persisted
values, so `obj.status` is `old_status`; `delivered_at` is stamped with
the current date exactly when `old_status != "납품완료" and
obj.status == "납품완료"`, and is otherwise left untouched (the payload's
own `delivered_at` is ignored). -/
def updatedOrder (obj : ProcessOrder) (payload : ProcessOrderSchema) (today : String) :
    ProcessOrder :=
  { obj with
    company_name := payload.company_name
    quote_date := payload.quote_date
    category := payload.category
    product_name := payload.product_name
    quantity := payload.quantity
    status := payload.status
    actual_order_amount := payload.actual_order_amount
    related_file := payload.related_file
    due_date := payload.due_date
    unit_manufacturing_cost := payload.unit_manufacturing_cost
    total_quote_price := payload.total_quote_price
    unit_quote_price := update_unit_quote_price payload.total_quote_price payload.quantity
    margin_rate := update_margin_rate payload.total_quote_price payload.unit_manufacturing_cost
    delivered_at :=
      if obj.status ≠ "납품완료" ∧ payload.status = "납품완료" then some today
      else obj.delivered_at }

/-- `.first()` existence check on tracking rows for an order. -/
def hasTracking (trackings : List ProcessTracking) (oid : ℤ) : Bool :=
  (trackings.find? (fun t => decide (t.order_id = oid))).isSome

/-- In-place ORM mutation of the first order matching the id. -/
def replaceFirstOrder : List ProcessOrder → ℤ → ProcessOrder → List ProcessOrder
  | [], _, _ => []
  | o :: os, oid, o' => if o.id = oid then o' :: os else o :: replaceFirstOrder os oid o'

/-- `update_process_order` (src/main.py:1172): 404 (`none`) when the
order id is absent; otherwise overwrite the mutable fields, recompute
the derived fields, and on an observed transition into `"제작중"` insert
a tracking row if none exists for the order. -/
def update_process_order (db : OrderDB) (order_id : ℤ) (payload : ProcessOrderSchema)
    (today : String) : Option OrderDB :=
  match db.orders.find? (fun o => decide (o.id = order_id)) with
  | none => none
  | some obj =>
    let obj' := updatedOrder obj payload today
    let trackings :=
      if obj.status ≠ "제작중" ∧ payload.status = "제작중" ∧ ¬ hasTracking db.trackings obj.id
      then db.trackings ++ [⟨obj.id⟩]
      else db.trackings
    some ⟨replaceFirstOrder db.orders order_id obj', trackings⟩

/-! ## Revenue summary (`get_sales_summary`, src/main.py:1483) -/

/-- A parsed calendar date. -/
structure DateYMD where
  year : ℕ
  month : ℕ
  day : ℕ
deriving DecidableEq

/-- Gregorian leap-year rule used by `datetime`. -/
def isLeapYear (y : ℕ) : Bool :=
  decide (y % 4 = 0 ∧ (y % 100 ≠ 0 ∨ y % 400 = 0))

/-- Days in a month, as validated by the `datetime` constructor. -/
def daysInMonth (y m : ℕ) : ℕ :=
  if m = 2 then (if isLeapYear y then 29 else 28)
  else if m = 4 ∨ m = 6 ∨ m = 9 ∨ m = 11 then 30
  else 31

/-- Split a character list on `'-'` (the literal separators of the
`"%Y-%m-%d"` format). -/
def splitDash : List Char → List (List Char)
  | [] => [[]]
  | c :: cs =>
    if c = '-' then [] :: splitDash cs
    else
      match splitDash cs with
      | [] => [[c]]
      | g :: gs => (c :: g) :: gs

/-- Numeric value of a digit string. -/
def digitsToNat (cs : List Char) : ℕ :=
  cs.foldl (fun n c => n * 10 + (c.toNat - 48)) 0

/-- All characters are ASCII digits. -/
def allDigits (cs : List Char) : Bool := cs.all (·.isDigit)

/-- `datetime.strptime(s, "%Y-%m-%d")`, `None` on failure: `%Y` matches
exactly four digits, `%m` and `%d` one or two digits with values
1..12 / 1..31, the whole string must be consumed, and the resulting
date must be a valid `datetime` (year ≥ 1, day within the month). -/
def strptime_Ymd (s : String) : Option DateYMD :=
  match splitDash s.data with
  | [ys, ms, ds] =>
    if allDigits ys ∧ allDigits ms ∧ allDigits ds ∧ ys.length = 4 ∧
        1 ≤ ms.length ∧ ms.length ≤ 2 ∧ 1 ≤ ds.length ∧ ds.length ≤ 2 then
      let y := digitsToNat ys
      let m := digitsToNat ms
      let d := digitsToNat ds
      if 1 ≤ y ∧ 1 ≤ m ∧ m ≤ 12 ∧ 1 ≤ d ∧ d ≤ daysInMonth y m then some ⟨y, m, d⟩
      else none
    else none
  | _ => none

/-- `parse_date` (src/main.py:1499): `None`/empty is falsy and yields
`None`; otherwise attempt `strptime`. -/
def parse_date (s : Option String) : Option DateYMD :=
  match s with
  | none => none
  | some s => if s = "" then none else strptime_Ymd s

/-- `quarter(month) = (month - 1) // 3 + 1`. -/
def quarterOf (m : ℕ) : ℕ := (m - 1) / 3 + 1

/-- The response of `/sales/summary`. -/
structure SalesSummary where
  year : ℕ
  quarter : ℕ
  month : ℕ
  total_sales_all : ℤ
  total_sales_year : ℤ
  total_sales_quarter : ℤ
  total_sales_month : ℤ
deriving DecidableEq

/-- Loop body of `get_sales_summary` over one delivered order, acting
on the accumulator `(total_all, total_year, total_quarter,
total_month)`. `total_quote_price` is a non-nullable `int`, so the
source's `int(o.total_quote_price or 0)` is the value itself. -/
def salesStep (now_year now_month : ℕ) (acc : ℤ × ℤ × ℤ × ℤ) (o : ProcessOrder) :
    ℤ × ℤ × ℤ × ℤ :=
  let amount := o.total_quote_price
  let total_all := acc.1 + amount
  match parse_date o.delivered_at with
  | none => (total_all, acc.2.1, acc.2.2.1, acc.2.2.2)
  | some d =>
    if d.year = now_year then
      (total_all,
        acc.2.1 + amount,
        if quarterOf d.month = quarterOf now_month then acc.2.2.1 + amount else acc.2.2.1,
        if d.month = now_month then acc.2.2.2 + amount else acc.2.2.2)
    else (total_all, acc.2.1, acc.2.2.1, acc.2.2.2)

/-- `get_sales_summary` (src/main.py:1483): fold the delivered orders
(status `"납품완료"`) through `salesStep`, starting from four zero
totals, relative to the current year and month. -/
def get_sales_summary (orders : List ProcessOrder) (now_year now_month : ℕ) : SalesSummary :=
  let delivered := orders.filter (fun o => decide (o.status = "납품완료"))
  let t := delivered.foldl (salesStep now_year now_month) (0, 0, 0, 0)
  { year := now_year
    quarter := quarterOf now_month
    month := now_month
    total_sales_all := t.1
    total_sales_year := t.2.1
    total_sales_quarter := t.2.2.1
    total_sales_month := t.2.2.2 }

/-! ## Spec-side definitions

These follow the wording of the specification (not the source) and are
compared with the source-derived definitions above. -/

/-- Spec (§4.1 step 1 / §8): the distinct elements of a list in
first-occurrence order — each element keeps its earliest position,
later duplicates are removed. -/
def distinctFirst : List String → List String
  | [] => []
  | x :: xs => x :: (distinctFirst xs).filter (fun y => y ≠ x)

/-- Spec (§4.2): `unitQuotePrice = floor(totalQuotePrice / quantity)`
if `quantity > 0`, else 0. -/
def spec_unit_quote_price (total_quote_price quantity : ℤ) : ℤ :=
  if 0 < quantity then total_quote_price.fdiv quantity else 0

/-- Spec (§4.2): `marginRate = (totalQuotePrice - manufacturingCost) /
totalQuotePrice * 100` if `totalQuotePrice > 0`, else null. -/
def spec_margin_rate (total_quote_price manufacturing_cost : ℤ) : Option ℚ :=
  if 0 < total_quote_price then
    some (((total_quote_price - manufacturing_cost : ℤ) : ℚ) /
      ((total_quote_price : ℤ) : ℚ) * 100)
  else none

/-- The percent of the last share row of this owner for this title in
storage iteration order (the value duplicate rows resolve to), absent
when the owner has no row for the title. -/
def last_share_value_personnel (shares : List PersonnelProjectShare) (pid : ℤ)
    (t : String) : Option ℚ :=
  ((shares.filter (fun s => decide (s.personnel_id = pid ∧ s.project_title = t))).getLast?).map
    (fun s => s.percent.getD 0)

/-- Equipment version of `last_share_value_personnel`. -/
def last_share_value_equipment (shares : List EquipmentProjectShare) (eid : ℤ)
    (t : String) : Option ℚ :=
  ((shares.filter (fun s => decide (s.equipment_id = eid ∧ s.project_title = t))).getLast?).map
    (fun s => s.percent.getD 0)

/-- Spec (§4.1 steps 2-3): the owner's total percent — the sum over the
active titles of the owner's (last) stored percent for that title,
defaulting to 0, with no cap. -/
def spec_total_percent_personnel (shares : List PersonnelProjectShare)
    (active : List String) (pid : ℤ) : ℚ :=
  (active.map (fun t => (last_share_value_personnel shares pid t).getD 0)).sum

/-- Equipment version of `spec_total_percent_personnel`. -/
def spec_total_percent_equipment (shares : List EquipmentProjectShare)
    (active : List String) (eid : ℤ) : ℚ :=
  (active.map (fun t => (last_share_value_equipment shares eid t).getD 0)).sum

/-- The two-level dict lookup the report rows perform: the owner's inner
share dict (empty when absent), then the title. -/
def share_lookup (m : List (ℤ × List (String × ℚ))) (k : ℤ) (t : String) : Option ℚ :=
  assocGet ((assocGet m k).getD []) t

/-- Claim C8's reading of the active-title list, with no condition on
the title itself: the distinct titles of active-status projects in
first-occurrence order. -/
def naive_active_titles (ps : List Project) : List String :=
  distinctFirst ((ps.filter (fun r => decide (r.status = "진행중" ∨ r.status = "신청완료"))).map (·.title))

/-- Revenue-recognition predicate: the order's `deliveredAt` parses and
its year is the current year. -/
def inYearB (now_year : ℕ) (o : ProcessOrder) : Bool :=
  match parse_date o.delivered_at with
  | some d => decide (d.year = now_year)
  | none => false

/-- The order's `deliveredAt` parses, its year is the current year and
additionally its quarter is the current quarter. -/
def inQuarterB (now_year now_month : ℕ) (o : ProcessOrder) : Bool :=
  match parse_date o.delivered_at with
  | some d => decide (d.year = now_year ∧ quarterOf d.month = quarterOf now_month)
  | none => false

/-- The order's `deliveredAt` parses, its year is the current year and
additionally its month is the current month. -/
def inMonthB (now_year now_month : ℕ) (o : ProcessOrder) : Bool :=
  match parse_date o.delivered_at with
  | some d => decide (d.year = now_year ∧ d.month = now_month)
  | none => false

/-- The last `some` produced by `f` along a list (later elements win),
the shape shared by every "last write wins" loop of the source. -/
def lastMatch {α β : Type} (f : α → Option β) (l : List α) : Option β :=
  l.foldl (fun acc s => (f s).orElse (fun _ => acc)) none

/-! ## Helper lemmas -/

theorem pyTrunc_eq_floor {q : ℚ} (h : 0 ≤ q) : pyTrunc q = ⌊q⌋ := by
  rw [Rat.floor_def, pyTrunc]
  exact Int.tdiv_eq_ediv (Rat.num_nonneg.mpr h) (Int.ofNat_nonneg _)

theorem assocGet_assocSet_self {α β : Type} [DecidableEq α] (m : List (α × β)) (k : α)
    (v : β) : assocGet (assocSet m k v) k = some v := by
  induction m with
  | nil => simp [assocGet, assocSet]
  | cons kv rest ih =>
    by_cases h : kv.1 = k
    · simp [assocGet, assocSet, h]
    · simp [assocGet, assocSet, h, ih]

theorem assocGet_assocSet_ne {α β : Type} [DecidableEq α] (m : List (α × β)) {k k' : α}
    (v : β) (h : k' ≠ k) : assocGet (assocSet m k v) k' = assocGet m k' := by
  induction m with
  | nil => simp [assocGet, assocSet, Ne.symm h]
  | cons kv rest ih =>
    by_cases hkv : kv.1 = k
    · simp [assocGet, assocSet, hkv, Ne.symm h]
    · by_cases hkv' : kv.1 = k'
      · simp [assocGet, assocSet, hkv, hkv', h]
      · simp [assocGet, assocSet, hkv, hkv', ih]

theorem foldl_orElse_init {α β : Type} (f : α → Option β) (l : List α) :
    ∀ acc : Option β,
      l.foldl (fun acc s => (f s).orElse (fun _ => acc)) acc =
        (lastMatch f l).orElse (fun _ => acc) := by
  induction l with
  | nil => intro acc; cases acc <;> rfl
  | cons s ss ih =>
    intro acc
    have h2 : lastMatch f (s :: ss) =
        (lastMatch f ss).orElse (fun _ => (f s).orElse (fun _ => none)) := by
      show ss.foldl _ ((f s).orElse fun _ => none) = _
      rw [ih]
    show ss.foldl _ ((f s).orElse fun _ => acc) = _
    rw [ih, h2]
    cases lastMatch f ss <;> cases f s <;> rfl

theorem lastMatch_cons {α β : Type} (f : α → Option β) (s : α) (ss : List α) :
    lastMatch f (s :: ss) = (lastMatch f ss).orElse (fun _ => f s) := by
  show ss.foldl _ ((f s).orElse fun _ => none) = _
  rw [foldl_orElse_init]
  cases lastMatch f ss <;> cases f s <;> rfl

theorem getLast?_cons_eq_orElse {α : Type} (s : α) (xs : List α) :
    (s :: xs).getLast? = (xs.getLast?).orElse (fun _ => some s) := by
  cases xs with
  | nil => rfl
  | cons b bs =>
    rw [List.getLast?_cons_cons]
    rw [List.getLast?_eq_getLast_of_ne_nil (l := b :: bs) (by simp)]
    rfl

theorem getLast?_filter_eq_lastMatch {α : Type} (p : α → Bool) (l : List α) :
    (l.filter p).getLast? = lastMatch (fun s => if p s then some s else none) l := by
  induction l with
  | nil => rfl
  | cons s ss ih =>
    rw [lastMatch_cons]
    by_cases h : p s
    · rw [show (s :: ss).filter p = s :: ss.filter p by simp [h]]
      rw [getLast?_cons_eq_orElse, ih, if_pos h]
    · rw [show (s :: ss).filter p = ss.filter p by simp [h]]
      rw [ih, if_neg h]
      cases lastMatch (fun s => if p s then some s else none) ss <;> rfl

theorem lastMatch_map {α β γ : Type} (g : α → Option β) (v : β → γ) (l : List α) :
    lastMatch (fun s => (g s).map v) l = (lastMatch g l).map v := by
  induction l with
  | nil => rfl
  | cons s ss ih =>
    rw [lastMatch_cons, lastMatch_cons, ih]
    cases lastMatch g ss <;> cases g s <;> rfl

theorem last_share_value_personnel_eq_lastMatch (shares : List PersonnelProjectShare)
    (pid : ℤ) (t : String) :
    last_share_value_personnel shares pid t =
      lastMatch (fun s => if s.personnel_id = pid ∧ s.project_title = t
        then some (s.percent.getD 0) else none) shares := by
  unfold last_share_value_personnel
  rw [getLast?_filter_eq_lastMatch, ← lastMatch_map]
  congr 1
  funext s
  by_cases h : s.personnel_id = pid ∧ s.project_title = t <;> simp [h]

theorem last_share_value_equipment_eq_lastMatch (shares : List EquipmentProjectShare)
    (eid : ℤ) (t : String) :
    last_share_value_equipment shares eid t =
      lastMatch (fun s => if s.equipment_id = eid ∧ s.project_title = t
        then some (s.percent.getD 0) else none) shares := by
  unfold last_share_value_equipment
  rw [getLast?_filter_eq_lastMatch, ← lastMatch_map]
  congr 1
  funext s
  by_cases h : s.equipment_id = eid ∧ s.project_title = t <;> simp [h]

theorem share_lookup_fold_personnel (active : List String) (pid : ℤ) (t : String)
    (ht : t ∈ active) (shares : List PersonnelProjectShare) :
    ∀ m : List (ℤ × List (String × ℚ)),
      share_lookup (shares.foldl (person_share_step active) m) pid t =
        (lastMatch (fun s => if s.personnel_id = pid ∧ s.project_title = t
          then some (s.percent.getD 0) else none) shares).orElse
          (fun _ => share_lookup m pid t) := by
  induction shares with
  | nil => intro m; rfl
  | cons s ss ih =>
    intro m
    rw [List.foldl_cons, ih, lastMatch_cons]
    have hstep : share_lookup (person_share_step active m s) pid t =
        ((if s.personnel_id = pid ∧ s.project_title = t
          then some (s.percent.getD 0) else none) : Option ℚ).orElse
          (fun _ => share_lookup m pid t) := by
      unfold person_share_step share_lookup
      by_cases hact : s.project_title ∈ active
      · rw [if_pos hact]
        by_cases hp : s.personnel_id = pid
        · subst hp
          rw [assocGet_assocSet_self]
          by_cases htt : s.project_title = t
          · subst htt
            rw [if_pos ⟨rfl, rfl⟩]
            simp [assocGet_assocSet_self]
          · rw [if_neg (fun hc => htt hc.2)]
            rw [Option.getD]
            rw [assocGet_assocSet_ne _ _ (Ne.symm htt)]
            rfl
        · rw [assocGet_assocSet_ne _ _ (fun hc => hp hc.symm)]
          rw [if_neg (fun hc => hp hc.1)]
          rfl
      · rw [if_neg hact]
        have hcond : ¬ (s.personnel_id = pid ∧ s.project_title = t) :=
          fun hc => hact (hc.2 ▸ ht)
        rw [if_neg hcond]
        rfl
    rw [hstep]
    cases lastMatch (fun s => if s.personnel_id = pid ∧ s.project_title = t
        then some (s.percent.getD 0) else none) ss <;>
      cases hm : (if s.personnel_id = pid ∧ s.project_title = t
        then some (s.percent.getD 0) else (none : Option ℚ)) <;>
      simp [hm]

theorem share_lookup_person_share_map (shares : List PersonnelProjectShare)
    (active : List String) (pid : ℤ) (t : String) (ht : t ∈ active) :
    share_lookup (person_share_map shares active) pid t =
      last_share_value_personnel shares pid t := by
  unfold person_share_map
  rw [share_lookup_fold_personnel active pid t ht shares []]
  rw [last_share_value_personnel_eq_lastMatch]
  cases lastMatch (fun s => if s.personnel_id = pid ∧ s.project_title = t
      then some (s.percent.getD 0) else none) shares <;> rfl

theorem share_lookup_fold_equipment (active : List String) (eid : ℤ) (t : String)
    (ht : t ∈ active) (shares : List EquipmentProjectShare) :
    ∀ m : List (ℤ × List (String × ℚ)),
      share_lookup (shares.foldl (equip_share_step active) m) eid t =
        (lastMatch (fun s => if s.equipment_id = eid ∧ s.project_title = t
          then some (s.percent.getD 0) else none) shares).orElse
          (fun _ => share_lookup m eid t) := by
  induction shares with
  | nil => intro m; rfl
  | cons s ss ih =>
    intro m
    rw [List.foldl_cons, ih, lastMatch_cons]
    have hstep : share_lookup (equip_share_step active m s) eid t =
        ((if s.equipment_id = eid ∧ s.project_title = t
          then some (s.percent.getD 0) else none) : Option ℚ).orElse
          (fun _ => share_lookup m eid t) := by
      unfold equip_share_step share_lookup
      by_cases hact : s.project_title ∈ active
      · rw [if_pos hact]
        by_cases hp : s.equipment_id = eid
        · subst hp
          rw [assocGet_assocSet_self]
          by_cases htt : s.project_title = t
          · subst htt
            rw [if_pos ⟨rfl, rfl⟩]
            simp [assocGet_assocSet_self]
          · rw [if_neg (fun hc => htt hc.2)]
            rw [Option.getD]
            rw [assocGet_assocSet_ne _ _ (Ne.symm htt)]
            rfl
        · rw [assocGet_assocSet_ne _ _ (fun hc => hp hc.symm)]
          rw [if_neg (fun hc => hp hc.1)]
          rfl
      · rw [if_neg hact]
        have hcond : ¬ (s.equipment_id = eid ∧ s.project_title = t) :=
          fun hc => hact (hc.2 ▸ ht)
        rw [if_neg hcond]
        rfl
    rw [hstep]
    cases lastMatch (fun s => if s.equipment_id = eid ∧ s.project_title = t
        then some (s.percent.getD 0) else none) ss <;>
      cases hm : (if s.equipment_id = eid ∧ s.project_title = t
        then some (s.percent.getD 0) else (none : Option ℚ)) <;>
      simp [hm]

theorem share_lookup_equip_share_map (shares : List EquipmentProjectShare)
    (active : List String) (eid : ℤ) (t : String) (ht : t ∈ active) :
    share_lookup (equip_share_map shares active) eid t =
      last_share_value_equipment shares eid t := by
  unfold equip_share_map
  rw [share_lookup_fold_equipment active eid t ht shares []]
  rw [last_share_value_equipment_eq_lastMatch]
  cases lastMatch (fun s => if s.equipment_id = eid ∧ s.project_title = t
      then some (s.percent.getD 0) else none) shares <;> rfl

theorem filter_map_comm {α β : Type} (f : α → β) (p : β → Bool) (l : List α) :
    (l.filter (fun a => p (f a))).map f = (l.map f).filter p := by
  induction l with
  | nil => rfl
  | cons a l ih => by_cases h : p (f a) <;> simp [List.filter_cons, h, ih]

theorem mem_distinctFirst (t : String) (xs : List String) :
    t ∈ distinctFirst xs ↔ t ∈ xs := by
  induction xs with
  | nil => simp [distinctFirst]
  | cons x l ih =>
    simp only [distinctFirst, List.mem_cons]
    constructor
    · rintro (rfl | h)
      · exact Or.inl rfl
      · exact Or.inr (ih.mp (List.mem_of_mem_filter h))
    · rintro (rfl | h)
      · exact Or.inl rfl
      · by_cases hx : t = x
        · exact Or.inl hx
        · exact Or.inr (List.mem_filter.mpr ⟨ih.mpr h, by simp [hx]⟩)

theorem nodup_distinctFirst (xs : List String) : (distinctFirst xs).Nodup := by
  induction xs with
  | nil => simp [distinctFirst]
  | cons x l ih =>
    simp only [distinctFirst]
    refine List.nodup_cons.mpr ⟨?_, ih.filter _⟩
    intro hmem
    have := List.of_mem_filter hmem
    simp at this

theorem foldl_pyDictInsertKey (xs : List String) :
    ∀ acc : List String,
      xs.foldl pyDictInsertKey acc =
        acc ++ (distinctFirst xs).filter (fun y => decide (¬ y ∈ acc)) := by
  induction xs with
  | nil => intro acc; simp [distinctFirst]
  | cons x l ih =>
    intro acc
    rw [List.foldl_cons]
    by_cases hx : x ∈ acc
    · rw [show pyDictInsertKey acc x = acc from if_pos hx, ih]
      congr 1
      simp only [distinctFirst, List.filter_cons]
      rw [if_neg (by simp [hx]), List.filter_filter]
      apply List.filter_congr
      intro y _
      by_cases hyacc : y ∈ acc
      · simp [hyacc]
      · have hyx : y ≠ x := fun h => hyacc (h ▸ hx)
        simp [hyacc, hyx]
    · rw [show pyDictInsertKey acc x = acc ++ [x] from if_neg hx, ih]
      simp only [distinctFirst, List.filter_cons]
      rw [if_pos (by simp [hx]), List.append_assoc]
      congr 1
      rw [List.filter_filter, List.singleton_append]
      congr 1
      apply List.filter_congr
      intro y _
      by_cases h1 : y = x
      · subst h1; simp
      · by_cases h2 : y ∈ acc <;> simp [h1, h2]

theorem pyDictFromKeys_eq_distinctFirst (xs : List String) :
    pyDictFromKeys xs = distinctFirst xs := by
  unfold pyDictFromKeys
  rw [foldl_pyDictInsertKey xs []]
  simp

theorem sales_foldl (now_year now_month : ℕ) (l : List ProcessOrder) :
    ∀ a y q m : ℤ,
      l.foldl (salesStep now_year now_month) (a, y, q, m) =
        (a + (l.map (·.total_quote_price)).sum,
         y + ((l.filter (inYearB now_year)).map (·.total_quote_price)).sum,
         q + ((l.filter (inQuarterB now_year now_month)).map (·.total_quote_price)).sum,
         m + ((l.filter (inMonthB now_year now_month)).map (·.total_quote_price)).sum) := by
  induction l with
  | nil => intro a y q m; simp
  | cons o l ih =>
    intro a y q m
    rw [List.foldl_cons]
    cases hd : parse_date o.delivered_at with
    | none =>
      have hstep : salesStep now_year now_month (a, y, q, m) o =
          (a + o.total_quote_price, y, q, m) := by
        simp [salesStep, hd]
      have hY : inYearB now_year o = false := by simp [inYearB, hd]
      have hQ : inQuarterB now_year now_month o = false := by simp [inQuarterB, hd]
      have hM : inMonthB now_year now_month o = false := by simp [inMonthB, hd]
      rw [hstep, ih]
      simp only [List.filter_cons, hY, hQ, hM, Bool.false_eq_true, if_false,
        List.map_cons, List.sum_cons, Prod.mk.injEq]
      repeat' apply And.intro
      all_goals ring_nf
    | some d =>
      by_cases hy : d.year = now_year
      · by_cases hq : quarterOf d.month = quarterOf now_month
        · by_cases hm2 : d.month = now_month
          · have hstep : salesStep now_year now_month (a, y, q, m) o =
                (a + o.total_quote_price, y + o.total_quote_price,
                 q + o.total_quote_price, m + o.total_quote_price) := by
              simp [salesStep, hd, hy, hq, hm2]
            have hY : inYearB now_year o = true := by simp [inYearB, hd, hy]
            have hQ : inQuarterB now_year now_month o = true := by
              simp [inQuarterB, hd, hy, hq]
            have hM : inMonthB now_year now_month o = true := by
              simp [inMonthB, hd, hy, hm2]
            rw [hstep, ih]
            simp only [List.filter_cons, hY, hQ, hM, if_true, List.map_cons,
              List.sum_cons, Prod.mk.injEq]
            repeat' apply And.intro
            all_goals ring_nf
          · have hstep : salesStep now_year now_month (a, y, q, m) o =
                (a + o.total_quote_price, y + o.total_quote_price,
                 q + o.total_quote_price, m) := by
              simp [salesStep, hd, hy, hq, hm2]
            have hY : inYearB now_year o = true := by simp [inYearB, hd, hy]
            have hQ : inQuarterB now_year now_month o = true := by
              simp [inQuarterB, hd, hy, hq]
            have hM : inMonthB now_year now_month o = false := by
              simp [inMonthB, hd, hm2]
            rw [hstep, ih]
            simp only [List.filter_cons, hY, hQ, hM, if_true, Bool.false_eq_true,
              if_false, List.map_cons, List.sum_cons, Prod.mk.injEq]
            repeat' apply And.intro
            all_goals ring_nf
        · have hm2 : ¬ d.month = now_month := fun hc => hq (by rw [hc])
          have hstep : salesStep now_year now_month (a, y, q, m) o =
              (a + o.total_quote_price, y + o.total_quote_price, q, m) := by
            simp [salesStep, hd, hy, hq, hm2]
          have hY : inYearB now_year o = true := by simp [inYearB, hd, hy]
          have hQ : inQuarterB now_year now_month o = false := by
            simp [inQuarterB, hd, hq]
          have hM : inMonthB now_year now_month o = false := by
            simp [inMonthB, hd, hm2]
          rw [hstep, ih]
          simp only [List.filter_cons, hY, hQ, hM, if_true, Bool.false_eq_true,
            if_false, List.map_cons, List.sum_cons, Prod.mk.injEq]
          repeat' apply And.intro
          all_goals ring_nf
      · have hstep : salesStep now_year now_month (a, y, q, m) o =
            (a + o.total_quote_price, y, q, m) := by
          simp [salesStep, hd, hy]
        have hY : inYearB now_year o = false := by simp [inYearB, hd, hy]
        have hQ : inQuarterB now_year now_month o = false := by simp [inQuarterB, hd, hy]
        have hM : inMonthB now_year now_month o = false := by simp [inMonthB, hd, hy]
        rw [hstep, ih]
        simp only [List.filter_cons, hY, hQ, hM, Bool.false_eq_true, if_false,
          List.map_cons, List.sum_cons, Prod.mk.injEq]
        repeat' apply And.intro
        all_goals ring_nf

/-! ## Claims -/

/-- Claim C8, counterexample: for an active-status project whose title
is the empty string, the computed active-title list is empty, while the
claim's reading ("exactly the distinct titles of projects whose status
is InProgress or Applied") would contain the empty title: the source
drops falsy titles (`if r.title` at src/main.py:836). -/
theorem c8_counterexample :
    get_active_project_titles (some [({ id := 1, title := "", status := "진행중" } : Project)]) = [] ∧
    naive_active_titles [({ id := 1, title := "", status := "진행중" } : Project)] = [""] ∧
    get_active_project_titles (some [({ id := 1, title := "", status := "진행중" } : Project)]) ≠
      naive_active_titles [({ id := 1, title := "", status := "진행중" } : Project)] := by
  refine ⟨rfl, rfl, ?_⟩
  decide

/-- Claim C8 (amended: restricted to non-empty titles): for any
sequence of project records, the derived active-project list is exactly
the distinct *non-empty* titles of projects whose status is InProgress
(`"진행중"`) or Applied (`"신청완료"`), in first-occurrence order, with no
duplicates. -/
theorem c8_active_titles (ps : List Project) :
    get_active_project_titles (some ps) =
      distinctFirst (((ps.filter (fun r =>
        decide (r.status = "진행중" ∨ r.status = "신청완료"))).map (·.title)).filter
          (fun t => decide (t ≠ ""))) ∧
    (get_active_project_titles (some ps)).Nodup ∧
    (∀ t, t ∈ get_active_project_titles (some ps) ↔
      (t ≠ "" ∧ ∃ p ∈ ps, p.title = t ∧ (p.status = "진행중" ∨ p.status = "신청완료"))) := by
  have h1 : get_active_project_titles (some ps) =
      distinctFirst (((ps.filter (fun r =>
        decide (r.status = "진행중" ∨ r.status = "신청완료"))).map (·.title)).filter
          (fun t => decide (t ≠ ""))) := by
    show pyDictFromKeys _ = _
    rw [pyDictFromKeys_eq_distinctFirst]
    rw [← filter_map_comm (fun r : Project => r.title) (fun t => decide (t ≠ ""))]
  refine ⟨h1, ?_, ?_⟩
  · rw [h1]; exact nodup_distinctFirst _
  · intro t
    rw [h1, mem_distinctFirst]
    simp only [List.mem_filter, List.mem_map, decide_eq_true_eq]
    constructor
    · rintro ⟨⟨p, ⟨hp, hstat⟩, rfl⟩, hne⟩
      exact ⟨hne, p, hp, rfl, hstat⟩
    · rintro ⟨hne, p, hp, rfl, hstat⟩
      exact ⟨⟨p, ⟨hp, hstat⟩, rfl⟩, hne⟩

/-- Claim C10: if storage contains multiple share rows for the same
owner and the same active project title, the allocation report's share
map holds, for that owner and title, the percent of the *last* such row
in storage iteration order (null percents read as 0) — duplicates
overwrite one another rather than being summed, for personnel and for
equipment alike. -/
theorem c10_duplicate_shares_last_wins
    (pshares : List PersonnelProjectShare) (eshares : List EquipmentProjectShare)
    (active : List String) (ownerId : ℤ) (t : String) (ht : t ∈ active) :
    share_lookup (person_share_map pshares active) ownerId t =
      last_share_value_personnel pshares ownerId t ∧
    share_lookup (equip_share_map eshares active) ownerId t =
      last_share_value_equipment eshares ownerId t :=
  ⟨share_lookup_person_share_map pshares active ownerId t ht,
   share_lookup_equip_share_map eshares active ownerId t ht⟩

/-- Witness for C10 at a concrete store: owner 1 has two rows for the
active title "A" (30 then 45, and 10 then 20 on the equipment side);
the report uses 45 resp. 20, the last rows' percents. -/
theorem c10_witness :
    last_share_value_personnel [⟨1, "A", some 30⟩, ⟨1, "A", some 45⟩] 1 "A" = some 45 ∧
    last_share_value_equipment [⟨1, "A", some 10⟩, ⟨1, "A", some 20⟩] 1 "A" = some 20 ∧
    share_lookup (person_share_map [⟨1, "A", some 30⟩, ⟨1, "A", some 45⟩] ["A"]) 1 "A" =
      last_share_value_personnel [⟨1, "A", some 30⟩, ⟨1, "A", some 45⟩] 1 "A" ∧
    share_lookup (equip_share_map [⟨1, "A", some 10⟩, ⟨1, "A", some 20⟩] ["A"]) 1 "A" =
      last_share_value_equipment [⟨1, "A", some 10⟩, ⟨1, "A", some 20⟩] 1 "A" := by
  refine ⟨by decide, by decide, ?_⟩
  exact c10_duplicate_shares_last_wins
    [⟨1, "A", some 30⟩, ⟨1, "A", some 45⟩] [⟨1, "A", some 10⟩, ⟨1, "A", some 20⟩]
    ["A"] 1 "A" (by decide)

theorem pyTrunc_neg (q : ℚ) : pyTrunc (-q) = -(pyTrunc q) := by
  show (-q).num.tdiv (-q).den = _
  rw [show (-q).num = -q.num from rfl, show ((-q).den : ℤ) = (q.den : ℤ) from rfl,
    Int.neg_tdiv]
  rfl

theorem pyTrunc_eq_ceil_of_nonpos {q : ℚ} (h : q ≤ 0) : pyTrunc q = ⌈q⌉ := by
  have h2 : 0 ≤ -q := by linarith
  have h3 : pyTrunc (-q) = ⌊-q⌋ := pyTrunc_eq_floor h2
  rw [pyTrunc_neg, Int.floor_neg] at h3
  omega

theorem personnel_shares_sum_eq (active : List String)
    (pshares : List PersonnelProjectShare) (pid : ℤ) :
    ((proj_shares_for active ((assocGet (person_share_map pshares active) pid).getD [])).map
      (·.2)).sum = spec_total_percent_personnel pshares active pid := by
  unfold proj_shares_for spec_total_percent_personnel
  rw [List.map_map]
  apply congrArg List.sum
  apply List.map_congr_left
  intro t ht
  show (share_lookup (person_share_map pshares active) pid t).getD 0 = _
  rw [share_lookup_person_share_map pshares active pid t ht]

theorem equipment_shares_sum_eq (active : List String)
    (eshares : List EquipmentProjectShare) (eid : ℤ) :
    ((proj_shares_for active ((assocGet (equip_share_map eshares active) eid).getD [])).map
      (·.2)).sum = spec_total_percent_equipment eshares active eid := by
  unfold proj_shares_for spec_total_percent_equipment
  rw [List.map_map]
  apply congrArg List.sum
  apply List.map_congr_left
  intro t ht
  show (share_lookup (equip_share_map eshares active) eid t).getD 0 = _
  rw [share_lookup_equip_share_map eshares active eid t ht]

theorem spec_total_percent_personnel_nonneg {pshares : List PersonnelProjectShare}
    (active : List String) (pid : ℤ) (h : ∀ s ∈ pshares, 0 ≤ s.percent.getD 0) :
    0 ≤ spec_total_percent_personnel pshares active pid := by
  apply List.sum_nonneg
  intro x hx
  simp only [List.mem_map] at hx
  obtain ⟨t, _, rfl⟩ := hx
  cases hgl : (pshares.filter
      (fun s => decide (s.personnel_id = pid ∧ s.project_title = t))).getLast? with
  | none =>
    unfold last_share_value_personnel
    rw [hgl]
    simp
  | some s =>
    have hs : s ∈ pshares := by
      obtain ⟨hne, hxeq⟩ := List.mem_getLast?_eq_getLast (x := s)
        (show s ∈ List.getLast? _ from hgl)
      exact List.mem_of_mem_filter (hxeq ▸ List.getLast_mem hne)
    unfold last_share_value_personnel
    rw [hgl, Option.map_some']
    simpa using h s hs

theorem spec_total_percent_equipment_nonneg {eshares : List EquipmentProjectShare}
    (active : List String) (eid : ℤ) (h : ∀ s ∈ eshares, 0 ≤ s.percent.getD 0) :
    0 ≤ spec_total_percent_equipment eshares active eid := by
  apply List.sum_nonneg
  intro x hx
  simp only [List.mem_map] at hx
  obtain ⟨t, _, rfl⟩ := hx
  cases hgl : (eshares.filter
      (fun s => decide (s.equipment_id = eid ∧ s.project_title = t))).getLast? with
  | none =>
    unfold last_share_value_equipment
    rw [hgl]
    simp
  | some s =>
    have hs : s ∈ eshares := by
      obtain ⟨hne, hxeq⟩ := List.mem_getLast?_eq_getLast (x := s)
        (show s ∈ List.getLast? _ from hgl)
      exact List.mem_of_mem_filter (hxeq ▸ List.getLast_mem hne)
    unfold last_share_value_equipment
    rw [hgl, Option.map_some']
    simpa using h s hs

/-- Claim C3, counterexample: an owner with a negative base value —
reachable, since `POST /personnel` accepts any integer salary — breaks
the `floor` reading. With salary −1 and a 50% share on the only active
project, the code's `int()` truncates −0.5 toward zero and reports 0,
while `floor(B * P / 100) = −1`. -/
theorem c3_counterexample :
    (personnel_row ["A"] (person_share_map [⟨1, "A", some 50⟩] ["A"])
      ⟨1, "n", "d", some (-1)⟩).total_amount = 0 ∧
    ⌊((((⟨1, "n", "d", some (-1)⟩ : Personnel).salary.getD 0 : ℤ) : ℚ) *
      spec_total_percent_personnel [⟨1, "A", some 50⟩] ["A"] 1 / 100)⌋ = -1 := by
  have hP : spec_total_percent_personnel [⟨1, "A", some 50⟩] ["A"] 1 = 50 := by
    unfold spec_total_percent_personnel
    rw [show (["A"].map (fun t =>
      (last_share_value_personnel [⟨1, "A", some 50⟩] 1 t).getD 0)) = [(50 : ℚ)] from rfl]
    simp
  constructor
  · show pyTrunc (personnel_amountQ ["A"]
      (person_share_map [⟨1, "A", some 50⟩] ["A"]) ⟨1, "n", "d", some (-1)⟩) = 0
    unfold personnel_amountQ
    rw [personnel_shares_sum_eq, hP]
    rw [pyTrunc_eq_ceil_of_nonpos (by norm_num)]
    norm_num
  · rw [hP]
    norm_num

/-- Claim C3 (amended: `int()` truncates toward zero, which agrees with
`floor` from the nonnegative base values and percents every write path
produces): in the allocation report the personnel and equipment rows
are exactly the per-owner rows, and for every owner with base value `B`
(salary or acquisitionCost, null treated as 0) the reported
`totalAmount` is `B * P / 100` truncated toward zero, where `P` sums
over the active titles the percent of the owner's last stored share row
for that title (the plain restricted share sum when the owner has at
most one row per title) with no cap at 100; when `B ≥ 0` and the stored
percents are nonnegative this equals `floor(B * P / 100)`. -/
theorem c3_allocation_total_amount
    (people : List Personnel) (pshares : List PersonnelProjectShare)
    (equipments : List Equipment) (eshares : List EquipmentProjectShare)
    (projectsRes : Option (List Project)) (p : Personnel) (e : Equipment)
    (active : List String) :
    (get_assets ⟨some people, some pshares, some equipments, some eshares,
        projectsRes⟩).personnel_rows =
      people.map (personnel_row (get_active_project_titles projectsRes)
        (person_share_map pshares (get_active_project_titles projectsRes))) ∧
    (get_assets ⟨some people, some pshares, some equipments, some eshares,
        projectsRes⟩).equipment_rows =
      equipments.map (equipment_row (get_active_project_titles projectsRes)
        (equip_share_map eshares (get_active_project_titles projectsRes))) ∧
    (personnel_row active (person_share_map pshares active) p).total_percent =
      spec_total_percent_personnel pshares active p.id ∧
    (personnel_row active (person_share_map pshares active) p).total_amount =
      pyTrunc (((p.salary.getD 0 : ℤ) : ℚ) *
        spec_total_percent_personnel pshares active p.id / 100) ∧
    (0 ≤ p.salary.getD 0 → (∀ s ∈ pshares, 0 ≤ s.percent.getD 0) →
      (personnel_row active (person_share_map pshares active) p).total_amount =
        ⌊((p.salary.getD 0 : ℤ) : ℚ) *
          spec_total_percent_personnel pshares active p.id / 100⌋) ∧
    (equipment_row active (equip_share_map eshares active) e).total_percent =
      spec_total_percent_equipment eshares active e.id ∧
    (equipment_row active (equip_share_map eshares active) e).total_amount =
      pyTrunc (((e.acquisition_cost.getD 0 : ℤ) : ℚ) *
        spec_total_percent_equipment eshares active e.id / 100) ∧
    (0 ≤ e.acquisition_cost.getD 0 → (∀ s ∈ eshares, 0 ≤ s.percent.getD 0) →
      (equipment_row active (equip_share_map eshares active) e).total_amount =
        ⌊((e.acquisition_cost.getD 0 : ℤ) : ℚ) *
          spec_total_percent_equipment eshares active e.id / 100⌋) := by
  have hpp : (personnel_row active (person_share_map pshares active) p).total_percent =
      spec_total_percent_personnel pshares active p.id := by
    show ((proj_shares_for active _).map (·.2)).sum = _
    exact personnel_shares_sum_eq active pshares p.id
  have hpa : (personnel_row active (person_share_map pshares active) p).total_amount =
      pyTrunc (((p.salary.getD 0 : ℤ) : ℚ) *
        spec_total_percent_personnel pshares active p.id / 100) := by
    show pyTrunc (personnel_amountQ active (person_share_map pshares active) p) = _
    unfold personnel_amountQ
    rw [personnel_shares_sum_eq, mul_div_assoc]
  have hep : (equipment_row active (equip_share_map eshares active) e).total_percent =
      spec_total_percent_equipment eshares active e.id := by
    show ((proj_shares_for active _).map (·.2)).sum = _
    exact equipment_shares_sum_eq active eshares e.id
  have hea : (equipment_row active (equip_share_map eshares active) e).total_amount =
      pyTrunc (((e.acquisition_cost.getD 0 : ℤ) : ℚ) *
        spec_total_percent_equipment eshares active e.id / 100) := by
    show pyTrunc (equipment_amountQ active (equip_share_map eshares active) e) = _
    unfold equipment_amountQ
    rw [equipment_shares_sum_eq, mul_div_assoc]
  refine ⟨rfl, rfl, hpp, hpa, ?_, hep, hea, ?_⟩
  · intro hB hs
    rw [hpa]
    apply pyTrunc_eq_floor
    apply div_nonneg _ (by norm_num)
    exact mul_nonneg (by exact_mod_cast hB)
      (spec_total_percent_personnel_nonneg active p.id hs)
  · intro hB hs
    rw [hea]
    apply pyTrunc_eq_floor
    apply div_nonneg _ (by norm_num)
    exact mul_nonneg (by exact_mod_cast hB)
      (spec_total_percent_equipment_nonneg active e.id hs)

/-- Witness for (the amended) C3 at the specification's own scenario:
salary 60,000,000 with a 40% share on the single active project "A"
(and an equipment item of cost 1,000 with a 150% over-allocation, P >
100 uncapped); the truncated amounts coincide with the floors. -/
theorem c3_witness :
    (personnel_row ["A"] (person_share_map [⟨1, "A", some 40⟩] ["A"])
      ⟨1, "n", "d", some 60000000⟩).total_amount =
      ⌊(((Personnel.salary ⟨1, "n", "d", some 60000000⟩).getD 0 : ℤ) : ℚ) *
        spec_total_percent_personnel [⟨1, "A", some 40⟩] ["A"] 1 / 100⌋ ∧
    (equipment_row ["A", "B"] (equip_share_map
        [⟨2, "A", some 90⟩, ⟨2, "B", some 60⟩] ["A", "B"]) ⟨2, "m", some 1000, "2024-01-01"⟩).total_amount =
      ⌊(((Equipment.acquisition_cost ⟨2, "m", some 1000, "2024-01-01"⟩).getD 0 : ℤ) : ℚ) *
        spec_total_percent_equipment [⟨2, "A", some 90⟩, ⟨2, "B", some 60⟩] ["A", "B"] 2 / 100⌋ := by
  constructor
  · exact (c3_allocation_total_amount [] [⟨1, "A", some 40⟩] [] [] none
      ⟨1, "n", "d", some 60000000⟩ ⟨2, "m", some 1000, "2024-01-01"⟩
      ["A"]).2.2.2.2.1 (by decide) (by decide)
  · exact (c3_allocation_total_amount [] [] []
      [⟨2, "A", some 90⟩, ⟨2, "B", some 60⟩] none
      ⟨1, "n", "d", some 60000000⟩ ⟨2, "m", some 1000, "2024-01-01"⟩
      ["A", "B"]).2.2.2.2.2.2.2 (by decide) (by decide)

/-- Claim C5, counterexample: when only the projects query fails (the
failure caught inside `get_active_project_titles`), the report is *not*
the zero-valued one: the per-owner rows are still produced and the
salary grand total still sums the salaries. -/
theorem c5_counterexample :
    (get_assets ⟨some [⟨1, "a", "d", some 100⟩], some [], some [], some [],
      none⟩).personnel_salary_total = 100 ∧
    (get_assets ⟨some [⟨1, "a", "d", some 100⟩], some [], some [], some [],
      none⟩).personnel_rows.length = 1 ∧
    get_assets ⟨some [⟨1, "a", "d", some 100⟩], some [], some [], some [], none⟩ ≠
      empty_result := by
  refine ⟨?_, rfl, ?_⟩
  · show pyTrunc ((((100 : ℤ) : ℚ)) + 0) = 100
    rw [add_zero]
    decide
  · intro h
    have h2 : (1 : ℕ) = 0 := congrArg (fun r => r.personnel_rows.length) h
    exact one_ne_zero h2

/-- Claim C5 (amended): a storage failure in any of the four
owner/share reads yields the zero-valued `empty_result`; a storage
failure inside the active-project-title lookup is masked to an empty
active list only, and the report is then computed normally over it (so
per-owner rows and base-value totals survive). -/
theorem c5_storage_failure (db : AssetsDB) :
    (db.people = none ∨ db.person_shares = none ∨ db.equipments = none ∨
      db.equip_shares = none → get_assets db = empty_result) ∧
    (db.projects = none →
      get_assets db = get_assets { db with projects := some [] }) := by
  rcases db with ⟨pp, ps, eqs, es, pr⟩
  constructor
  · intro h
    rcases h with h | h | h | h
    · subst h; cases ps <;> cases eqs <;> cases es <;> rfl
    · subst h; cases pp <;> cases eqs <;> cases es <;> rfl
    · subst h; cases pp <;> cases ps <;> cases es <;> rfl
    · subst h; cases pp <;> cases ps <;> cases eqs <;> rfl
  · intro h
    subst h
    cases pp <;> cases ps <;> cases eqs <;> cases es <;> rfl

/-- Witness for (the amended) C5: a failing people read yields the
empty report; a failing projects read behaves as if there were no
projects at all. -/
theorem c5_witness :
    get_assets ⟨none, some [], some [], some [], some []⟩ = empty_result ∧
    get_assets ⟨some [], some [], some [], some [], none⟩ =
      get_assets ⟨some [], some [], some [], some [], some []⟩ :=
  ⟨(c5_storage_failure ⟨none, some [], some [], some [], some []⟩).1 (Or.inl rfl),
   (c5_storage_failure ⟨some [], some [], some [], some [], none⟩).2 rfl⟩

theorem filter_idem {α : Type} (p : α → Bool) (l : List α) :
    (l.filter p).filter p = l.filter p := by
  rw [List.filter_eq_self]
  intro a ha
  exact List.of_mem_filter ha

theorem mem_personnel_shares_from_payload {pid : ℤ} {payload : List (String × Option ℚ)}
    {s : PersonnelProjectShare} (hs : s ∈ personnel_shares_from_payload pid payload) :
    s.personnel_id = pid ∧
      ∃ v, s.percent = some v ∧ 0 < v ∧ (s.project_title, some v) ∈ payload := by
  obtain ⟨⟨t, pv⟩, hmem, heq⟩ := List.mem_filterMap.mp hs
  cases pv with
  | none => simp at heq
  | some v =>
    have heq2 : (if 0 < v then
        some (⟨pid, t, some v⟩ : PersonnelProjectShare) else none) = some s := heq
    by_cases hv : 0 < v
    · rw [if_pos hv] at heq2
      obtain rfl := Option.some.inj heq2
      exact ⟨rfl, v, rfl, hv, hmem⟩
    · rw [if_neg hv] at heq2
      simp at heq2

theorem mem_equipment_shares_from_payload {eid : ℤ} {payload : List (String × Option ℚ)}
    {s : EquipmentProjectShare} (hs : s ∈ equipment_shares_from_payload eid payload) :
    s.equipment_id = eid ∧
      ∃ v, s.percent = some v ∧ 0 < v ∧ (s.project_title, some v) ∈ payload := by
  obtain ⟨⟨t, pv⟩, hmem, heq⟩ := List.mem_filterMap.mp hs
  cases pv with
  | none => simp at heq
  | some v =>
    have heq2 : (if 0 < v then
        some (⟨eid, t, some v⟩ : EquipmentProjectShare) else none) = some s := heq
    by_cases hv : 0 < v
    · rw [if_pos hv] at heq2
      obtain rfl := Option.some.inj heq2
      exact ⟨rfl, v, rfl, hv, hmem⟩
    · rw [if_neg hv] at heq2
      simp at heq2

theorem personnel_payload_filter_ne (pid : ℤ) (payload : List (String × Option ℚ)) :
    (personnel_shares_from_payload pid payload).filter
      (fun s => decide (¬ s.personnel_id = pid)) = [] := by
  rw [List.filter_eq_nil_iff]
  intro s hs
  simp [(mem_personnel_shares_from_payload hs).1]

theorem equipment_payload_filter_ne (eid : ℤ) (payload : List (String × Option ℚ)) :
    (equipment_shares_from_payload eid payload).filter
      (fun s => decide (¬ s.equipment_id = eid)) = [] := by
  rw [List.filter_eq_nil_iff]
  intro s hs
  simp [(mem_equipment_shares_from_payload hs).1]

theorem personnel_payload_filter_eq (pid : ℤ) (payload : List (String × Option ℚ)) :
    (personnel_shares_from_payload pid payload).filter
      (fun s => decide (s.personnel_id = pid)) = personnel_shares_from_payload pid payload := by
  rw [List.filter_eq_self]
  intro s hs
  simp [(mem_personnel_shares_from_payload hs).1]

theorem equipment_payload_filter_eq (eid : ℤ) (payload : List (String × Option ℚ)) :
    (equipment_shares_from_payload eid payload).filter
      (fun s => decide (s.equipment_id = eid)) = equipment_shares_from_payload eid payload := by
  rw [List.filter_eq_self]
  intro s hs
  simp [(mem_equipment_shares_from_payload hs).1]

/-- Claim C9: replacing an owner's project shares is an idempotent full
replace, for personnel and equipment owners alike. Applying the same
payload twice leaves the stored rows exactly as after one application
(also when the owner is missing and both applications 404); after an
application, the owner's rows are exactly the payload-derived rows —
each carrying a parseable percent strictly greater than 0 from the
payload — other owners' rows are untouched, and no prior row of the
owner survives. -/
theorem c9_share_replace_idempotent
    (people : List Personnel) (eqs : List Equipment)
    (prows : List PersonnelProjectShare) (erows : List EquipmentProjectShare)
    (pid eid : ℤ) (payload : List (String × Option ℚ)) :
    ((update_personnel_shares people prows pid payload).bind
        (fun r1 => update_personnel_shares people r1 pid payload) =
      update_personnel_shares people prows pid payload) ∧
    (∀ r1, update_personnel_shares people prows pid payload = some r1 →
      r1.filter (fun s => decide (s.personnel_id = pid)) =
        personnel_shares_from_payload pid payload ∧
      r1.filter (fun s => decide (¬ s.personnel_id = pid)) =
        prows.filter (fun s => decide (¬ s.personnel_id = pid)) ∧
      (∀ s ∈ personnel_shares_from_payload pid payload,
        s.personnel_id = pid ∧
          ∃ v, s.percent = some v ∧ 0 < v ∧ (s.project_title, some v) ∈ payload)) ∧
    ((update_equipment_shares eqs erows eid payload).bind
        (fun r1 => update_equipment_shares eqs r1 eid payload) =
      update_equipment_shares eqs erows eid payload) ∧
    (∀ r1, update_equipment_shares eqs erows eid payload = some r1 →
      r1.filter (fun s => decide (s.equipment_id = eid)) =
        equipment_shares_from_payload eid payload ∧
      r1.filter (fun s => decide (¬ s.equipment_id = eid)) =
        erows.filter (fun s => decide (¬ s.equipment_id = eid)) ∧
      (∀ s ∈ equipment_shares_from_payload eid payload,
        s.equipment_id = eid ∧
          ∃ v, s.percent = some v ∧ 0 < v ∧ (s.project_title, some v) ∈ payload)) := by
  refine ⟨?_, ?_, ?_, ?_⟩
  · unfold update_personnel_shares
    by_cases hex : (people.find? (fun p => decide (p.id = pid))).isSome
    · rw [if_pos hex, Option.some_bind, if_pos hex]
      show some _ = some _
      rw [List.filter_append, filter_idem, personnel_payload_filter_ne, List.append_nil]
    · rw [if_neg hex]
      rfl
  · intro r1 h1
    unfold update_personnel_shares at h1
    by_cases hex : (people.find? (fun p => decide (p.id = pid))).isSome
    · rw [if_pos hex] at h1
      obtain rfl := Option.some.inj h1
      refine ⟨?_, ?_, fun s hs => mem_personnel_shares_from_payload hs⟩
      · rw [List.filter_append, personnel_payload_filter_eq]
        rw [show (prows.filter (fun s => decide (¬ s.personnel_id = pid))).filter
            (fun s => decide (s.personnel_id = pid)) = [] by
          rw [List.filter_eq_nil_iff]
          intro s hs
          have := List.of_mem_filter hs
          simp at this ⊢
          exact this]
        rfl
      · rw [List.filter_append, filter_idem, personnel_payload_filter_ne, List.append_nil]
    · rw [if_neg hex] at h1
      exact absurd h1 (by simp)
  · unfold update_equipment_shares
    by_cases hex : (eqs.find? (fun e => decide (e.id = eid))).isSome
    · rw [if_pos hex, Option.some_bind, if_pos hex]
      show some _ = some _
      rw [List.filter_append, filter_idem, equipment_payload_filter_ne, List.append_nil]
    · rw [if_neg hex]
      rfl
  · intro r1 h1
    unfold update_equipment_shares at h1
    by_cases hex : (eqs.find? (fun e => decide (e.id = eid))).isSome
    · rw [if_pos hex] at h1
      obtain rfl := Option.some.inj h1
      refine ⟨?_, ?_, fun s hs => mem_equipment_shares_from_payload hs⟩
      · rw [List.filter_append, equipment_payload_filter_eq]
        rw [show (erows.filter (fun s => decide (¬ s.equipment_id = eid))).filter
            (fun s => decide (s.equipment_id = eid)) = [] by
          rw [List.filter_eq_nil_iff]
          intro s hs
          have := List.of_mem_filter hs
          simp at this ⊢
          exact this]
        rfl
      · rw [List.filter_append, filter_idem, equipment_payload_filter_ne, List.append_nil]
    · rw [if_neg hex] at h1
      exact absurd h1 (by simp)

/-- Witness for C9 at a concrete store: owner 1 exists, has one prior
row, and the payload holds a positive entry, a non-positive entry
(dropped) and a null entry (dropped). -/
theorem c9_witness :
    ((update_personnel_shares [⟨1, "a", "d", none⟩] [⟨1, "Y", some 3⟩, ⟨2, "X", some 5⟩] 1
        [("A", some 40), ("B", some 0), ("C", none)]).bind
      (fun r1 => update_personnel_shares [⟨1, "a", "d", none⟩] r1 1
        [("A", some 40), ("B", some 0), ("C", none)])) =
      update_personnel_shares [⟨1, "a", "d", none⟩] [⟨1, "Y", some 3⟩, ⟨2, "X", some 5⟩] 1
        [("A", some 40), ("B", some 0), ("C", none)] ∧
    update_personnel_shares [⟨1, "a", "d", none⟩] [⟨1, "Y", some 3⟩, ⟨2, "X", some 5⟩] 1
        [("A", some 40), ("B", some 0), ("C", none)] =
      some [⟨2, "X", some 5⟩, ⟨1, "A", some 40⟩] := by
  constructor
  · exact (c9_share_replace_idempotent [⟨1, "a", "d", none⟩] [] [⟨1, "Y", some 3⟩, ⟨2, "X", some 5⟩]
      [] 1 1 [("A", some 40), ("B", some 0), ("C", none)]).1
  · decide

/-- Claim C4: the revenue summary is computed over exactly the orders
whose status is Delivered (`"납품완료"`); each such order's
`totalQuotePrice` enters `totalAll` unconditionally; an order whose
`deliveredAt` is absent or unparseable is in no windowed bucket (the
`inYearB`/`inQuarterB`/`inMonthB` predicates are false when `parse_date`
returns `none`); a parsed order enters `totalYear` iff its year is the
current year, `totalQuarter` iff additionally its quarter
(`(month − 1) div 3 + 1`) is the current quarter, and `totalMonth` iff
additionally its month is the current month. -/
theorem c4_sales_summary (orders : List ProcessOrder) (now_year now_month : ℕ) :
    (get_sales_summary orders now_year now_month).total_sales_all =
      ((orders.filter (fun o => decide (o.status = "납품완료"))).map
        (·.total_quote_price)).sum ∧
    (get_sales_summary orders now_year now_month).total_sales_year =
      (((orders.filter (fun o => decide (o.status = "납품완료"))).filter
        (inYearB now_year)).map (·.total_quote_price)).sum ∧
    (get_sales_summary orders now_year now_month).total_sales_quarter =
      (((orders.filter (fun o => decide (o.status = "납품완료"))).filter
        (inQuarterB now_year now_month)).map (·.total_quote_price)).sum ∧
    (get_sales_summary orders now_year now_month).total_sales_month =
      (((orders.filter (fun o => decide (o.status = "납품완료"))).filter
        (inMonthB now_year now_month)).map (·.total_quote_price)).sum ∧
    (∀ o : ProcessOrder, parse_date o.delivered_at = none →
      inYearB now_year o = false ∧ inQuarterB now_year now_month o = false ∧
        inMonthB now_year now_month o = false) ∧
    (get_sales_summary orders now_year now_month).year = now_year ∧
    (get_sales_summary orders now_year now_month).quarter = quarterOf now_month ∧
    (get_sales_summary orders now_year now_month).month = now_month := by
  have h := sales_foldl now_year now_month
    (orders.filter (fun o => decide (o.status = "납품완료"))) 0 0 0 0
  unfold get_sales_summary
  dsimp only
  rw [h]
  simp only [zero_add, eq_self_iff_true, true_and, and_true]
  intro o hd
  exact ⟨by simp [inYearB, hd], by simp [inQuarterB, hd], by simp [inMonthB, hd]⟩

/-- Number of tracking rows stored for an order. -/
def trackingCount (trackings : List ProcessTracking) (oid : ℤ) : ℕ :=
  (trackings.filter (fun t => decide (t.order_id = oid))).length

theorem hasTracking_false_iff (trackings : List ProcessTracking) (oid : ℤ) :
    hasTracking trackings oid = false ↔ trackingCount trackings oid = 0 := by
  unfold hasTracking trackingCount
  rw [← Bool.not_eq_true, Option.not_isSome_iff_eq_none, List.find?_eq_none,
    List.length_eq_zero, List.filter_eq_nil_iff]

theorem trackingCount_append_self (trackings : List ProcessTracking) (oid : ℤ) :
    trackingCount (trackings ++ [⟨oid⟩]) oid = trackingCount trackings oid + 1 := by
  unfold trackingCount
  rw [List.filter_append]
  simp

/-- Claim C6: an update moving an order from a status other than
InProduction (`"제작중"`) to InProduction creates a tracking row for it
iff none currently exists; an update whose previous status is already
InProduction creates none; a Quoting → InProduction transition with no
existing row yields exactly one; and create with initial status
InProduction immediately appends one tracking row. -/
theorem c6_tracking_creation
    (db : OrderDB) (oid : ℤ) (p : ProcessOrderSchema) (today : String)
    (obj : ProcessOrder) (f : CreateOrderForm) (newId : ℤ)
    (hfind : db.orders.find? (fun o => decide (o.id = oid)) = some obj) :
    (obj.status ≠ "제작중" → p.status = "제작중" →
      (update_process_order db oid p today).map
          (fun db2 => trackingCount db2.trackings obj.id) =
        some (if trackingCount db.trackings obj.id = 0
          then trackingCount db.trackings obj.id + 1
          else trackingCount db.trackings obj.id)) ∧
    (obj.status = "제작중" → p.status = "제작중" →
      (update_process_order db oid p today).map (fun db2 => db2.trackings) =
        some db.trackings) ∧
    (obj.status = "견적중" → p.status = "제작중" → trackingCount db.trackings obj.id = 0 →
      (update_process_order db oid p today).map
          (fun db2 => trackingCount db2.trackings obj.id) = some 1) ∧
    (f.status = "제작중" →
      (create_process_order db f newId today).1.trackings = db.trackings ++ [⟨newId⟩]) ∧
    (f.status ≠ "제작중" →
      (create_process_order db f newId today).1.trackings = db.trackings) := by
  have hupd : update_process_order db oid p today =
      some ⟨replaceFirstOrder db.orders oid (updatedOrder obj p today),
        if obj.status ≠ "제작중" ∧ p.status = "제작중" ∧ ¬ hasTracking db.trackings obj.id
        then db.trackings ++ [⟨obj.id⟩] else db.trackings⟩ := by
    unfold update_process_order
    rw [hfind]
  refine ⟨?_, ?_, ?_, ?_, ?_⟩
  · intro h1 h2
    rw [hupd, Option.map_some']
    by_cases hht : hasTracking db.trackings obj.id
    · rw [if_neg (fun hc => hc.2.2 hht)]
      have hc0 : ¬ trackingCount db.trackings obj.id = 0 := by
        intro hc
        rw [← hasTracking_false_iff] at hc
        rw [hc] at hht
        exact Bool.false_ne_true hht
      rw [if_neg hc0]
    · have hht' : hasTracking db.trackings obj.id = false := by
        cases h : hasTracking db.trackings obj.id
        · rfl
        · exact absurd h hht
      rw [if_pos ⟨h1, h2, fun hc => Bool.false_ne_true (hht' ▸ hc)⟩]
      rw [if_pos ((hasTracking_false_iff _ _).mp hht')]
      show some (trackingCount (db.trackings ++ [⟨obj.id⟩]) obj.id) =
        some (trackingCount db.trackings obj.id + 1)
      rw [trackingCount_append_self]
  · intro h1 _
    rw [hupd, Option.map_some']
    rw [if_neg (fun hc => hc.1 h1)]
  · intro h1 h2 h3
    rw [hupd, Option.map_some']
    have hht' : hasTracking db.trackings obj.id = false :=
      (hasTracking_false_iff _ _).mpr h3
    rw [if_pos ⟨by rw [h1]; decide, h2, fun hc => Bool.false_ne_true (hht' ▸ hc)⟩]
    show some (trackingCount (db.trackings ++ [⟨obj.id⟩]) obj.id) = some 1
    rw [trackingCount_append_self, h3]
  · intro h1
    show (if f.status = "제작중" then db.trackings ++ [⟨newId⟩] else db.trackings) = _
    rw [if_pos h1]
  · intro h1
    show (if f.status = "제작중" then db.trackings ++ [⟨newId⟩] else db.trackings) = _
    rw [if_neg h1]

/-- A concrete stored order in status Quoting, used by the concrete
instances below. -/
def sampleOrderQuoting : ProcessOrder :=
  ⟨1, "c", "2024-01-01", "RBSC", "x", 1, 0, 0, 100, "견적중", none, none, none, none, none⟩

/-- A concrete update payload with the given status. -/
def payloadWithStatus (st : String) : ProcessOrderSchema :=
  ⟨"c", "2024-01-01", "RBSC", "x", 1, 0, 0, 100, st, none, none, none, none, none⟩

/-- A concrete create form with the given status. -/
def sampleCreateForm (st : String) : CreateOrderForm :=
  ⟨"c", "2024-01-01", "RBSC", "x", 1, 0, 100, st, "2024-02-01", none, none⟩

/-- Witness for C6: a Quoting → InProduction update on a store with no
tracking rows yields exactly one tracking row for the order, and a
create with initial status InProduction appends one tracking row. -/
theorem c6_witness :
    (update_process_order ⟨[sampleOrderQuoting], []⟩ 1 (payloadWithStatus "제작중")
        "2024-01-05").map (fun db2 => trackingCount db2.trackings sampleOrderQuoting.id) =
      some 1 ∧
    (create_process_order ⟨[], []⟩ (sampleCreateForm "제작중") 7 "2024-01-05").1.trackings =
      [] ++ [⟨7⟩] := by
  constructor
  · exact (c6_tracking_creation ⟨[sampleOrderQuoting], []⟩ 1 (payloadWithStatus "제작중")
      "2024-01-05" sampleOrderQuoting (sampleCreateForm "제작중") 7 rfl).2.2.1
      (by decide) rfl rfl
  · exact (c6_tracking_creation ⟨[sampleOrderQuoting], []⟩ 1 (payloadWithStatus "제작중")
      "2024-01-05" sampleOrderQuoting (sampleCreateForm "제작중") 7 rfl).2.2.2.1 rfl

/-- Claim C7: neither create nor update faults on a zero quantity or a
zero total quote price — both endpoints are total functions of the
embedding, and the derived values degrade as specified: quantity 0
yields `unitQuotePrice = 0` (no division is attempted), and
`totalQuotePrice = 0` yields `marginRate = null`, on create and on
update alike. -/
theorem c7_zero_quantity_price_safe (db : OrderDB) (f : CreateOrderForm) (newId : ℤ)
    (today : String) (obj : ProcessOrder) (p : ProcessOrderSchema) :
    (f.quantity = 0 → 0 < f.total_quote_price →
      (create_process_order db f newId today).2.unit_quote_price = 0) ∧
    (f.total_quote_price = 0 →
      (create_process_order db f newId today).2.margin_rate = none) ∧
    (p.quantity = 0 → (updatedOrder obj p today).unit_quote_price = 0) ∧
    (p.total_quote_price = 0 → (updatedOrder obj p today).margin_rate = none) := by
  refine ⟨?_, ?_, ?_, ?_⟩
  · intro h0 _
    show create_unit_quote_price f.total_quote_price f.quantity = 0
    unfold create_unit_quote_price
    rw [h0]
    simp
  · intro h0
    show create_margin_rate f.total_quote_price f.manufacturing_cost = none
    unfold create_margin_rate
    rw [h0]
    simp
  · intro h0
    show update_unit_quote_price p.total_quote_price p.quantity = 0
    unfold update_unit_quote_price
    rw [h0]
    simp
  · intro h0
    show update_margin_rate p.total_quote_price p.unit_manufacturing_cost = none
    unfold update_margin_rate
    rw [h0]
    simp

/-- Witness for C7: creating with quantity 0 and total quote price 1000
yields unit price 0; creating with total quote price 0 yields a null
margin; likewise for update. -/
theorem c7_witness :
    (create_process_order ⟨[], []⟩ ⟨"c", "2024-01-01", "RBSC", "x", 0, 500, 1000, "견적중",
        "2024-02-01", none, none⟩ 1 "2024-01-01").2.unit_quote_price = 0 ∧
    (create_process_order ⟨[], []⟩ ⟨"c", "2024-01-01", "RBSC", "x", 2, 500, 0, "견적중",
        "2024-02-01", none, none⟩ 1 "2024-01-01").2.margin_rate = none ∧
    (updatedOrder sampleOrderQuoting ⟨"c", "2024-01-01", "RBSC", "x", 0, 0, 0, 1000, "견적중",
        none, none, none, none, none⟩ "2024-01-02").unit_quote_price = 0 ∧
    (updatedOrder sampleOrderQuoting ⟨"c", "2024-01-01", "RBSC", "x", 2, 0, 0, 0, "견적중",
        none, none, none, none, none⟩ "2024-01-02").margin_rate = none := by
  refine ⟨?_, ?_, ?_, ?_⟩
  · exact (c7_zero_quantity_price_safe ⟨[], []⟩ ⟨"c", "2024-01-01", "RBSC", "x", 0, 500, 1000,
      "견적중", "2024-02-01", none, none⟩ 1 "2024-01-01" sampleOrderQuoting
      (payloadWithStatus "견적중")).1 rfl (by decide)
  · exact (c7_zero_quantity_price_safe ⟨[], []⟩ ⟨"c", "2024-01-01", "RBSC", "x", 2, 500, 0,
      "견적중", "2024-02-01", none, none⟩ 1 "2024-01-01" sampleOrderQuoting
      (payloadWithStatus "견적중")).2.1 rfl
  · exact (c7_zero_quantity_price_safe ⟨[], []⟩ (sampleCreateForm "견적중") 1 "2024-01-01"
      sampleOrderQuoting ⟨"c", "2024-01-01", "RBSC", "x", 0, 0, 0, 1000, "견적중",
      none, none, none, none, none⟩).2.2.1 rfl
  · exact (c7_zero_quantity_price_safe ⟨[], []⟩ (sampleCreateForm "견적중") 1 "2024-01-01"
      sampleOrderQuoting ⟨"c", "2024-01-01", "RBSC", "x", 2, 0, 0, 0, "견적중",
      none, none, none, none, none⟩).2.2.2 rfl

theorem delivered_at_preserved_while_delivered
    (updates : List (ProcessOrderSchema × String)) :
    ∀ obj : ProcessOrder, obj.status = "납품완료" →
      (∀ u ∈ updates, u.1.status = "납품완료") →
      (updates.foldl (fun o u => updatedOrder o u.1 u.2) obj).delivered_at =
        obj.delivered_at := by
  induction updates with
  | nil => intro obj _ _; rfl
  | cons u us ih =>
    intro obj hst hall
    rw [List.foldl_cons]
    have hs : (updatedOrder obj u.1 u.2).status = "납품완료" :=
      hall u (List.mem_cons_self u us)
    have hd : (updatedOrder obj u.1 u.2).delivered_at = obj.delivered_at := by
      show (if obj.status ≠ "납품완료" ∧ u.1.status = "납품완료" then some u.2
        else obj.delivered_at) = obj.delivered_at
      rw [if_neg (fun hc => hc.1 hst)]
    rw [ih (updatedOrder obj u.1 u.2) hs (fun x hx => hall x (List.mem_cons_of_mem u hx)), hd]

/-- Claim C1, counterexample: `deliveredAt` is *not* write-once across
arbitrary status sequences. Quoting → Delivered stamps 2024-01-01;
setting the order back to Quoting leaves the stamp; re-entering
Delivered re-stamps it with the new current date 2024-01-03, so a later
update did overwrite the value set by the first transition. -/
theorem c1_counterexample :
    (updatedOrder sampleOrderQuoting (payloadWithStatus "납품완료")
      "2024-01-01").delivered_at = some "2024-01-01" ∧
    (updatedOrder (updatedOrder (updatedOrder sampleOrderQuoting
        (payloadWithStatus "납품완료") "2024-01-01")
        (payloadWithStatus "견적중") "2024-01-02")
        (payloadWithStatus "납품완료") "2024-01-03").delivered_at = some "2024-01-03" ∧
    (updatedOrder (updatedOrder (updatedOrder sampleOrderQuoting
        (payloadWithStatus "납품완료") "2024-01-01")
        (payloadWithStatus "견적중") "2024-01-02")
        (payloadWithStatus "납품완료") "2024-01-03").delivered_at ≠
      (updatedOrder sampleOrderQuoting (payloadWithStatus "납품완료")
        "2024-01-01").delivered_at := by
  refine ⟨rfl, rfl, ?_⟩
  intro h
  exact absurd (Option.some.inj h) (by decide)

/-- Claim C1 (amended): `deliveredAt` is stamped with the current date
by *every* update whose previous persisted status is not Delivered
(`"납품완료"`) and whose new status is Delivered; it is left untouched by
an update whose previous status is already Delivered or whose new
status is not Delivered; consequently, along any update sequence that
keeps the status Delivered, the value set at the first transition is
never changed. It is write-once only as long as the order never leaves
Delivered. -/
theorem c1_delivered_at_stamping (obj : ProcessOrder) (p : ProcessOrderSchema)
    (today : String) (updates : List (ProcessOrderSchema × String)) :
    (obj.status ≠ "납품완료" → p.status = "납품완료" →
      (updatedOrder obj p today).delivered_at = some today) ∧
    (obj.status = "납품완료" ∨ p.status ≠ "납품완료" →
      (updatedOrder obj p today).delivered_at = obj.delivered_at) ∧
    (obj.status = "납품완료" → (∀ u ∈ updates, u.1.status = "납품완료") →
      (updates.foldl (fun o u => updatedOrder o u.1 u.2) obj).delivered_at =
        obj.delivered_at) := by
  refine ⟨?_, ?_, ?_⟩
  · intro h1 h2
    show (if obj.status ≠ "납품완료" ∧ p.status = "납품완료" then some today
      else obj.delivered_at) = some today
    rw [if_pos ⟨h1, h2⟩]
  · intro h
    show (if obj.status ≠ "납품완료" ∧ p.status = "납품완료" then some today
      else obj.delivered_at) = obj.delivered_at
    rcases h with h | h
    · rw [if_neg (fun hc => hc.1 h)]
    · rw [if_neg (fun hc => h hc.2)]
  · exact fun h1 h2 => delivered_at_preserved_while_delivered updates obj h1 h2

/-- Witness for (the amended) C1: the first transition into Delivered
stamps the date, and two further updates that keep the status Delivered
(on later dates) leave the stamp unchanged. -/
theorem c1_witness :
    (updatedOrder sampleOrderQuoting (payloadWithStatus "납품완료")
      "2024-01-01").delivered_at = some "2024-01-01" ∧
    ([(payloadWithStatus "납품완료", "2024-02-02"),
      (payloadWithStatus "납품완료", "2024-03-03")].foldl
        (fun o u => updatedOrder o u.1 u.2)
        (updatedOrder sampleOrderQuoting (payloadWithStatus "납품완료")
          "2024-01-01")).delivered_at =
      (updatedOrder sampleOrderQuoting (payloadWithStatus "납품완료")
        "2024-01-01").delivered_at := by
  constructor
  · exact (c1_delivered_at_stamping sampleOrderQuoting (payloadWithStatus "납품완료")
      "2024-01-01" []).1 (by decide) rfl
  · exact (c1_delivered_at_stamping
      (updatedOrder sampleOrderQuoting (payloadWithStatus "납품완료") "2024-01-01")
      (payloadWithStatus "납품완료") "2024-01-01"
      [(payloadWithStatus "납품완료", "2024-02-02"),
       (payloadWithStatus "납품완료", "2024-03-03")]).2.2 rfl (by decide)

theorem create_unit_eq_spec {tqp qty : ℤ} (hq : 0 ≤ qty) (ht : 0 ≤ tqp) :
    create_unit_quote_price tqp qty = spec_unit_quote_price tqp qty := by
  unfold create_unit_quote_price spec_unit_quote_price pyIntDiv
  by_cases h : qty = 0
  · subst h
    simp
  · have hpos : 0 < qty := lt_of_le_of_ne hq (Ne.symm h)
    rw [if_pos h, if_pos hpos]
    exact (Int.fdiv_eq_tdiv ht hq).symm

theorem update_unit_eq_spec {tqp qty : ℤ} (hq : 0 ≤ qty) (ht : 0 ≤ tqp) :
    update_unit_quote_price tqp qty = spec_unit_quote_price tqp qty := by
  unfold update_unit_quote_price spec_unit_quote_price pyIntDiv
  by_cases h : qty = 0
  · subst h
    simp
  · have hpos : 0 < qty := lt_of_le_of_ne hq (Ne.symm h)
    by_cases h2 : tqp = 0
    · subst h2
      rw [if_neg (fun hc => hc.2 rfl), if_pos hpos, Int.zero_fdiv]
    · rw [if_pos ⟨h, h2⟩, if_pos hpos]
      exact (Int.fdiv_eq_tdiv ht hq).symm

theorem create_margin_eq_spec (tqp mc : ℤ) :
    create_margin_rate tqp mc = spec_margin_rate tqp mc := rfl

theorem update_margin_eq_spec {tqp : ℤ} (mc : ℤ) (ht : 0 ≤ tqp) :
    update_margin_rate tqp mc = spec_margin_rate tqp mc := by
  unfold update_margin_rate spec_margin_rate
  by_cases h : tqp = 0
  · subst h
    rw [if_neg (fun hc => hc rfl), if_neg (lt_irrefl 0)]
  · have hpos : 0 < tqp := lt_of_le_of_ne ht (Ne.symm h)
    rw [if_pos h, if_pos hpos]

/-- Claim C2, counterexample: the margin-rate conditions differ between
create and update. Create computes a margin only when
`total_quote_price > 0`; update computes one whenever
`total_quote_price != 0`. At `totalQuotePrice = -100` (the schema
accepts any integer) update persists a non-null margin where the claim
— and create on the same raw inputs — give null; and at a negative
quantity create divides instead of returning the claimed 0. -/
theorem c2_counterexample :
    (updatedOrder sampleOrderQuoting ⟨"c", "2024-01-01", "RBSC", "x", 1, 0, 0, -100,
      "견적중", none, none, none, none, none⟩ "2024-01-02").margin_rate ≠ none ∧
    create_margin_rate (-100) 0 = none ∧
    (updatedOrder sampleOrderQuoting ⟨"c", "2024-01-01", "RBSC", "x", 1, 0, 0, -100,
      "견적중", none, none, none, none, none⟩ "2024-01-02").margin_rate ≠
      create_margin_rate (-100) 0 ∧
    create_unit_quote_price 10 (-2) = -5 ∧
    spec_unit_quote_price 10 (-2) = 0 ∧
    create_unit_quote_price 10 (-2) ≠ spec_unit_quote_price 10 (-2) := by
  have hm : (updatedOrder sampleOrderQuoting ⟨"c", "2024-01-01", "RBSC", "x", 1, 0, 0, -100,
      "견적중", none, none, none, none, none⟩ "2024-01-02").margin_rate =
      update_margin_rate (-100) 0 := rfl
  have hu : update_margin_rate (-100) 0 ≠ none := by
    unfold update_margin_rate
    rw [if_pos (by decide)]
    exact Option.some_ne_none _
  have hc : create_margin_rate (-100) 0 = none := by
    unfold create_margin_rate
    rw [if_neg (by decide)]
  refine ⟨hm ▸ hu, hc, hm ▸ (hc ▸ hu), by decide, by decide, by decide⟩

/-- Claim C2 (amended: restricted to the nonnegative quantities and
quote prices of the data model): for `quantity ≥ 0` and
`totalQuotePrice ≥ 0`, create and update both persist
`unitQuotePrice = floor(totalQuotePrice / quantity)` when
`quantity > 0` and 0 otherwise, and
`marginRate = (totalQuotePrice − manufacturingCost) / totalQuotePrice *
100` when `totalQuotePrice > 0` and null otherwise; in particular,
create and update given the same raw inputs persist identical derived
values. (Update computes the margin whenever `totalQuotePrice ≠ 0`, so
the two endpoints diverge at negative quote prices.) -/
theorem c2_derived_fields_agree (db : OrderDB) (f : CreateOrderForm) (newId : ℤ)
    (today : String) (obj : ProcessOrder) (p : ProcessOrderSchema) :
    (0 ≤ f.quantity → 0 ≤ f.total_quote_price →
      (create_process_order db f newId today).2.unit_quote_price =
        spec_unit_quote_price f.total_quote_price f.quantity ∧
      (create_process_order db f newId today).2.margin_rate =
        spec_margin_rate f.total_quote_price f.manufacturing_cost) ∧
    (0 ≤ p.quantity → 0 ≤ p.total_quote_price →
      (updatedOrder obj p today).unit_quote_price =
        spec_unit_quote_price p.total_quote_price p.quantity ∧
      (updatedOrder obj p today).margin_rate =
        spec_margin_rate p.total_quote_price p.unit_manufacturing_cost) ∧
    (f.quantity = p.quantity → f.total_quote_price = p.total_quote_price →
      f.manufacturing_cost = p.unit_manufacturing_cost →
      0 ≤ f.quantity → 0 ≤ f.total_quote_price →
      (create_process_order db f newId today).2.unit_quote_price =
        (updatedOrder obj p today).unit_quote_price ∧
      (create_process_order db f newId today).2.margin_rate =
        (updatedOrder obj p today).margin_rate) := by
  have hcu : (create_process_order db f newId today).2.unit_quote_price =
      create_unit_quote_price f.total_quote_price f.quantity := rfl
  have hcm : (create_process_order db f newId today).2.margin_rate =
      create_margin_rate f.total_quote_price f.manufacturing_cost := rfl
  have huu : (updatedOrder obj p today).unit_quote_price =
      update_unit_quote_price p.total_quote_price p.quantity := rfl
  have hum : (updatedOrder obj p today).margin_rate =
      update_margin_rate p.total_quote_price p.unit_manufacturing_cost := rfl
  refine ⟨?_, ?_, ?_⟩
  · intro hq ht
    exact ⟨hcu.trans (create_unit_eq_spec hq ht), hcm.trans (create_margin_eq_spec _ _)⟩
  · intro hq ht
    exact ⟨huu.trans (update_unit_eq_spec hq ht),
      hum.trans (update_margin_eq_spec _ ht)⟩
  · intro e1 e2 e3 hq ht
    constructor
    · rw [hcu, huu, e1, e2, create_unit_eq_spec (e1 ▸ hq) (e2 ▸ ht),
        update_unit_eq_spec (e1 ▸ hq) (e2 ▸ ht)]
    · rw [hcm, hum, e2, e3, create_margin_eq_spec,
        update_margin_eq_spec _ (e2 ▸ ht)]

/-- Witness for (the amended) C2: identical raw inputs (quantity 3,
manufacturing cost 40, total quote price 100) yield identical derived
fields on create and on update. -/
theorem c2_witness :
    (create_process_order ⟨[], []⟩ ⟨"c", "2024-01-01", "RBSC", "x", 3, 40, 100, "견적중",
        "2024-02-01", none, none⟩ 1 "2024-01-01").2.unit_quote_price =
      (updatedOrder sampleOrderQuoting ⟨"c", "2024-01-01", "RBSC", "x", 3, 40, 0, 100,
        "견적중", none, none, none, none, none⟩ "2024-01-02").unit_quote_price ∧
    (create_process_order ⟨[], []⟩ ⟨"c", "2024-01-01", "RBSC", "x", 3, 40, 100, "견적중",
        "2024-02-01", none, none⟩ 1 "2024-01-01").2.margin_rate =
      (updatedOrder sampleOrderQuoting ⟨"c", "2024-01-01", "RBSC", "x", 3, 40, 0, 100,
        "견적중", none, none, none, none, none⟩ "2024-01-02").margin_rate :=
  (c2_derived_fields_agree ⟨[], []⟩ ⟨"c", "2024-01-01", "RBSC", "x", 3, 40, 100, "견적중",
      "2024-02-01", none, none⟩ 1 "2024-01-01" sampleOrderQuoting
      ⟨"c", "2024-01-01", "RBSC", "x", 3, 40, 0, 100, "견적중",
        none, none, none, none, none⟩).2.2 rfl rfl rfl (by decide) (by decide)

/-- A concrete Delivered order with the given id, total quote price and
`delivered_at` value. -/
def deliveredOrder (id : ℤ) (tqp : ℤ) (dat : Option String) : ProcessOrder :=
  ⟨id, "c", "2024-01-01", "RBSC", "x", 1, 0, 0, tqp, "납품완료", none, none, none, dat, none⟩

/-- Witness for C4 at the specification's own scenario: orders of 1000
(delivered 2024-02-03, Q1) and 2000 (delivered 2024-05-10, Q2), one
Delivered order with an unparseable date (counted in the all-time total
only) and one non-Delivered order (counted nowhere), summarised at
February 2024. -/
theorem c4_witness :
    (get_sales_summary [deliveredOrder 1 1000 (some "2024-02-03"),
        deliveredOrder 2 2000 (some "2024-05-10"),
        deliveredOrder 3 500 (some "not-a-date"), sampleOrderQuoting] 2024 2).total_sales_all =
      (([deliveredOrder 1 1000 (some "2024-02-03"), deliveredOrder 2 2000 (some "2024-05-10"),
        deliveredOrder 3 500 (some "not-a-date"), sampleOrderQuoting].filter
          (fun o => decide (o.status = "납품완료"))).map (·.total_quote_price)).sum ∧
    get_sales_summary [deliveredOrder 1 1000 (some "2024-02-03"),
        deliveredOrder 2 2000 (some "2024-05-10"),
        deliveredOrder 3 500 (some "not-a-date"), sampleOrderQuoting] 2024 2 =
      ⟨2024, 1, 2, 3500, 3000, 1000, 1000⟩ := by
  constructor
  · exact (c4_sales_summary [deliveredOrder 1 1000 (some "2024-02-03"),
      deliveredOrder 2 2000 (some "2024-05-10"),
      deliveredOrder 3 500 (some "not-a-date"), sampleOrderQuoting] 2024 2).1
  · decide

/-- Witness for (the amended) C8 at a concrete project list: the two
active projects share the title "A", the Completed one is skipped, and
the list keeps the single first occurrence. -/
theorem c8_witness :
    get_active_project_titles
        (some [⟨1, "A", "진행중"⟩, ⟨2, "B", "종료"⟩, ⟨3, "A", "신청완료"⟩]) =
      distinctFirst (((([⟨1, "A", "진행중"⟩, ⟨2, "B", "종료"⟩, ⟨3, "A", "신청완료"⟩] :
        List Project).filter (fun r =>
          decide (r.status = "진행중" ∨ r.status = "신청완료"))).map (·.title)).filter
            (fun t => decide (t ≠ ""))) ∧
    get_active_project_titles
        (some [⟨1, "A", "진행중"⟩, ⟨2, "B", "종료"⟩, ⟨3, "A", "신청완료"⟩]) = ["A"] := by
  constructor
  · exact (c8_active_titles [⟨1, "A", "진행중"⟩, ⟨2, "B", "종료"⟩, ⟨3, "A", "신청완료"⟩]).1
  · decide
